import Mathlib

/-!
Shallow embedding of the `luna` term-rewriting core (crate `luna_lang`):
term representation (`src/luna_lang/src/expressions/`), symbol table
(`src/luna_lang/src/context.rs`), pattern matcher
(`src/luna_lang/src/matching/`), evaluator (`src/luna_lang/src/evaluate.rs`)
and built-in registry (`src/luna_lang/src/builtins/mod.rs`).

Modelling conventions:
* `Expr` mirrors `ExprKind`; reference-counted sharing (`Arc`) is dropped
  since all comparisons in the source are structural.  The arbitrary
  precision `BigInteger` payload is `Int`; the arbitrary-precision
  `BigFloat`/`OrdBigFloat` payload is modelled as an opaque integer value
  (the spec scopes numeric libraries out as "opaque numeric values with
  equality, ordering, and the usual operators", and no claim depends on
  floating-point rounding).
* Interned strings (`IString`, `Symbol`) are `String`.
* Rust panics (`panic!`, `todo!`, `unwrap` on `None`, `expect`) are made
  explicit: fallible operations return `Except String _` and a panic is an
  `.error` carrying the panic message.
* Unbounded loops (the matcher's backtracking loop and the evaluator's
  fixed-point loop) take explicit fuel and report fuel exhaustion as the
  distinguished error `"out of fuel"`, which is never confused with a
  panic of the modelled program.
* `HashMap` values (the context's tables, match solution sets) are
  modelled as association lists; solution sets are kept sorted by key so
  that list equality coincides with map equality.
-/

set_option maxHeartbeats 4000000
set_option maxRecDepth 100000
set_option synthInstance.maxHeartbeats 400000

namespace Luna

/-- Term representation, after `ExprKind` in `src/luna_lang/src/expressions/kind.rs`:
`String`, `Integer`, `Real`, `Symbol` atoms and `Normal` compound terms
`f[e1, ..., en]` whose head is itself a term. -/
inductive Expr where
  | str (s : String)
  | int (n : Int)
  | real (r : Int)
  | sym (s : String)
  | normal (head : Expr) (elements : List Expr)
deriving Repr

mutual

/-- Structural equality on terms, after the derived `PartialEq` on `ExprKind`
(variant and payload must match; for `Normal`, head and elements pairwise). -/
def Expr.beq : Expr → Expr → Bool
  | .str a, .str b => a == b
  | .int a, .int b => a == b
  | .real a, .real b => a == b
  | .sym a, .sym b => a == b
  | .normal h1 es1, .normal h2 es2 => Expr.beq h1 h2 && Expr.beqList es1 es2
  | _, _ => false

/-- Pairwise structural equality of element lists. -/
def Expr.beqList : List Expr → List Expr → Bool
  | [], [] => true
  | a :: as, b :: bs => Expr.beq a b && Expr.beqList as bs
  | _, _ => false

end

mutual

theorem Expr.beq_iff : ∀ (a b : Expr), Expr.beq a b = true ↔ a = b
  | .str a, .str b => by simp [Expr.beq]
  | .int a, .int b => by simp [Expr.beq]
  | .real a, .real b => by simp [Expr.beq]
  | .sym a, .sym b => by simp [Expr.beq]
  | .normal h1 es1, .normal h2 es2 => by
      simp only [Expr.beq, Bool.and_eq_true, Expr.beq_iff h1 h2,
        Expr.beqList_iff es1 es2, Expr.normal.injEq]
  | .str _, .int _ | .str _, .real _ | .str _, .sym _ | .str _, .normal _ _
  | .int _, .str _ | .int _, .real _ | .int _, .sym _ | .int _, .normal _ _
  | .real _, .str _ | .real _, .int _ | .real _, .sym _ | .real _, .normal _ _
  | .sym _, .str _ | .sym _, .int _ | .sym _, .real _ | .sym _, .normal _ _
  | .normal _ _, .str _ | .normal _ _, .int _ | .normal _ _, .real _
  | .normal _ _, .sym _ => by simp [Expr.beq]

theorem Expr.beqList_iff : ∀ (as bs : List Expr), Expr.beqList as bs = true ↔ as = bs
  | [], [] => by simp [Expr.beqList]
  | [], _ :: _ => by simp [Expr.beqList]
  | _ :: _, [] => by simp [Expr.beqList]
  | a :: as, b :: bs => by
      simp only [Expr.beqList, Bool.and_eq_true, Expr.beq_iff a b,
        Expr.beqList_iff as bs, List.cons.injEq]

end

instance : DecidableEq Expr := fun a b => decidable_of_iff _ (Expr.beq_iff a b)

/-- A normal expression `f[...]`, after `Normal` in
`src/luna_lang/src/expressions/normal.rs`. -/
structure NormalE where
  head : Expr
  elements : List Expr
deriving Repr, DecidableEq

def NormalE.toExpr (n : NormalE) : Expr := .normal n.head n.elements

/-- Source `Normal::len` (used by the matcher rules): number of elements. -/
def NormalE.len (n : NormalE) : Nat := n.elements.length

/-- Source `Normal::is_empty`. -/
def NormalE.isEmpty (n : NormalE) : Bool := n.elements.isEmpty

/-- Source `Normal::element` / `Normal::part`: the element at an index, if any. -/
def NormalE.element (n : NormalE) (i : Nat) : Option Expr := n.elements.get? i

/-- Source `Normal::has_head`: the head is the given symbol. -/
def NormalE.hasHead (n : NormalE) (s : String) : Bool :=
  match n.head with
  | .sym h => h == s
  | _ => false

/-- Source `Normal::try_head_symbol`. -/
def NormalE.tryHeadSymbol (n : NormalE) : Option String :=
  match n.head with
  | .sym h => some h
  | _ => none

/-- Source `Expr::try_normal`. -/
def Expr.tryNormal : Expr → Option NormalE
  | .normal h es => some ⟨h, es⟩
  | _ => none

/-- Source `Expr::try_symbol`. -/
def Expr.trySymbol : Expr → Option String
  | .sym s => some s
  | _ => none

/-- Source `Expr::is_normal_head`. -/
def Expr.isNormalHead (e : Expr) (s : String) : Bool :=
  match e with
  | .normal (.sym h) _ => h == s
  | _ => false

/-- Source `Expr::try_normal_head`: the `Normal` view when the head is the given symbol. -/
def Expr.tryNormalHead (e : Expr) (s : String) : Option NormalE :=
  match e with
  | .normal (.sym h) es => if h == s then some ⟨.sym h, es⟩ else none
  | _ => none

/-- Source `Expr::name`: the symbol itself for a symbol, recursively the
head's name for a normal expression (so `f[a][b]` is named `f`), absent
otherwise. -/
def Expr.name : Expr → Option String
  | .sym s => some s
  | .normal h _ => h.name
  | _ => none

/-- Source `Expr::head`: the variant symbol for atoms, the head for normals. -/
def Expr.headE : Expr → Expr
  | .str _ => .sym "String"
  | .int _ => .sym "Integer"
  | .real _ => .sym "Real"
  | .sym _ => .sym "Symbol"
  | .normal h _ => h

/-! ### Pattern-form recognisers, after `src/luna_lang/src/expression_matchers.rs` -/

/-- Source `is_sequence`: the expression has the form `Sequence[...]`. -/
def isSequence (e : Expr) : Bool := e.isNormalHead "Sequence"

/-- Source `try_sequence`: the elements of a `Sequence[...]` expression. -/
def trySequence (e : Expr) : Option (List Expr) :=
  (e.tryNormalHead "Sequence").map NormalE.elements

/-- Source `try_blank`: recognises `Blank[]` and `Blank[h]`, returning the optional head. -/
def tryBlank (e : Expr) : Option (Option Expr) :=
  match e.tryNormalHead "Blank" with
  | some v => if v.elements.length = 0 ∨ v.elements.length = 1 then some (v.elements.get? 0) else none
  | none => none

/-- Source `try_blank_sequence`: recognises `BlankSequence[]` and `BlankSequence[h]`. -/
def tryBlankSequence (e : Expr) : Option (Option Expr) :=
  match e.tryNormalHead "BlankSequence" with
  | some v => if v.elements.length = 0 ∨ v.elements.length = 1 then some (v.elements.get? 0) else none
  | none => none

/-- Source `try_blank_null_sequence`: recognises `BlankNullSequence[]` and
`BlankNullSequence[h]`. -/
def tryBlankNullSequence (e : Expr) : Option (Option Expr) :=
  match e.tryNormalHead "BlankNullSequence" with
  | some v => if v.elements.length = 0 ∨ v.elements.length = 1 then some (v.elements.get? 0) else none
  | none => none

/-- Source `try_blank_pattern`: recognises `Pattern[sym, Blank[...]]`. -/
def tryBlankPattern (e : Expr) : Option (String × Option Expr) :=
  match e.tryNormalHead "Pattern" with
  | some v =>
      match v.elements with
      | [s, p] =>
          match s.trySymbol with
          | some name => (tryBlank p).map fun h => (name, h)
          | none => none
      | _ => none
  | none => none

/-- Source `try_blank_sequence_pattern`: recognises `Pattern[sym, BlankSequence[...]]`. -/
def tryBlankSequencePattern (e : Expr) : Option (String × Option Expr) :=
  match e.tryNormalHead "Pattern" with
  | some v =>
      match v.elements with
      | [s, p] =>
          match s.trySymbol with
          | some name => (tryBlankSequence p).map fun h => (name, h)
          | none => none
      | _ => none
  | none => none

/-- Source `try_blank_null_sequence_pattern`: recognises
`Pattern[sym, BlankNullSequence[...]]`. -/
def tryBlankNullSequencePattern (e : Expr) : Option (String × Option Expr) :=
  match e.tryNormalHead "Pattern" with
  | some v =>
      match v.elements with
      | [s, p] =>
          match s.trySymbol with
          | some name => (tryBlankNullSequence p).map fun h => (name, h)
          | none => none
      | _ => none
  | none => none

/-- Source `is_blank_sequence`. -/
def isBlankSequence (e : Expr) : Bool := (tryBlankSequence e).isSome

/-- Source `is_blank_null_sequence`. -/
def isBlankNullSequence (e : Expr) : Bool := (tryBlankNullSequence e).isSome

/-- Source `is_any_blank_sequence`. -/
def isAnyBlankSequence (e : Expr) : Bool := isBlankSequence e || isBlankNullSequence e

/-- Source `is_any_sequence_pattern`: `Pattern[sym, seq-blank-form]`. -/
def isAnySequencePattern (e : Expr) : Bool :=
  match e.tryNormalHead "Pattern" with
  | some v =>
      match v.elements with
      | [s, p] =>
          match s.trySymbol with
          | some _ => isAnyBlankSequence p
          | none => false
      | _ => false
  | none => false

/-- Source `is_any_sequence_variable`: a sequence blank, named or not. -/
def isAnySequenceVariable (e : Expr) : Bool :=
  isAnyBlankSequence e || isAnySequencePattern e

/-- Source `parse_individual_variable`: recognises `Blank[...]` and
`Pattern[sym, Blank[...]]`, returning (optional name, optional head). -/
def parseIndividualVariable (e : Expr) : Option (Option String × Option Expr) :=
  match tryBlank e with
  | some h => some (none, h)
  | none =>
      match tryBlankPattern e with
      | some (v, h) => some (some v, h)
      | none => none

/-- Source `parse_any_sequence_variable`: recognises the four sequence-blank forms,
returning (matches-empty, optional name, optional head). -/
def parseAnySequenceVariable (e : Expr) : Option (Bool × Option String × Option Expr) :=
  match tryBlankSequence e with
  | some h => some (false, none, h)
  | none =>
      match tryBlankNullSequence e with
      | some h => some (true, none, h)
      | none =>
          match tryBlankSequencePattern e with
          | some (v, h) => some (false, some v, h)
          | none =>
              match tryBlankNullSequencePattern e with
              | some (v, h) => some (true, some v, h)
              | none => none

/-- Source `extract_condition`: splits `Condition[e, c]` into `(e, some c)`,
anything else into `(e, none)`. -/
def extractCondition (e : Expr) : Expr × Option Expr :=
  match e.tryNormalHead "Condition" with
  | some v =>
      match v.elements with
      | [a, b] => (a, some b)
      | _ => (e, none)
  | none => (e, none)

/-! ### Attributes, after `src/luna_lang/src/attributes.rs`

`Attribute` is a `repr(u32)` enum used as a bit index; `Attributes` is a
`u32` bitfield.  The enum order fixes the bit positions. -/

/-- Attribute bit positions, in the declaration order of `enum Attribute`. -/
inductive Attribute where
  | readOnly
  | attributesReadOnly
  | commutative
  | associative
  | holdFirst
  | holdRest
  | holdAll
  | holdAllComplete
  | holdSequence
deriving Repr, DecidableEq

/-- Source `Attribute as u32`: the discriminant in declaration order. -/
def Attribute.idx : Attribute → Nat
  | .readOnly => 0
  | .attributesReadOnly => 1
  | .commutative => 2
  | .associative => 3
  | .holdFirst => 4
  | .holdRest => 5
  | .holdAll => 6
  | .holdAllComplete => 7
  | .holdSequence => 8

/-- Source `Attributes`: a bitfield over `Attribute`. -/
structure Attributes where
  bits : Nat
deriving Repr, DecidableEq

/-- Source `Attributes::empty` / `Attributes::new`. -/
def Attributes.empty : Attributes := ⟨0⟩

/-- Bit test `(n >> i) & 1 == 1`, written arithmetically so that the kernel
can evaluate it (Lean's built-in `Nat` bitwise operators are defined by
well-founded recursion and do not reduce definitionally). -/
def testBitNat (n i : Nat) : Bool := (n / 2 ^ i) % 2 == 1

/-- Fuel-structured binary OR (the fuel `a + b` covers every bit). -/
def bitOrAux : Nat → Nat → Nat → Nat
  | 0, _, _ => 0
  | fuel + 1, a, b =>
      if a = 0 ∧ b = 0 then 0
      else 2 * bitOrAux fuel (a / 2) (b / 2) + (if a % 2 = 1 ∨ b % 2 = 1 then 1 else 0)

/-- Binary OR. -/
def bitOr (a b : Nat) : Nat := bitOrAux (a + b) a b

/-- Fuel-structured binary XOR. -/
def bitXorAux : Nat → Nat → Nat → Nat
  | 0, _, _ => 0
  | fuel + 1, a, b =>
      if a = 0 ∧ b = 0 then 0
      else 2 * bitXorAux fuel (a / 2) (b / 2) + (a + b) % 2

/-- Binary XOR. -/
def bitXor (a b : Nat) : Nat := bitXorAux (a + b) a b

/-- Source `Attributes::has`. -/
def Attributes.has (a : Attributes) (attr : Attribute) : Bool :=
  testBitNat a.bits attr.idx

/-- Source `Attributes::set`. -/
def Attributes.setAttr (a : Attributes) (attr : Attribute) : Attributes :=
  ⟨bitOr a.bits (2 ^ attr.idx)⟩

/-- Source `Attributes::from(attribute)` / `Attribute + Attribute` folding: build a
bitfield from a list of attributes. -/
def Attributes.ofList (attrs : List Attribute) : Attributes :=
  attrs.foldl Attributes.setAttr Attributes.empty

def Attributes.readOnly (a : Attributes) : Bool := a.has .readOnly
def Attributes.attributesReadOnly (a : Attributes) : Bool := a.has .attributesReadOnly
def Attributes.commutative (a : Attributes) : Bool := a.has .commutative
def Attributes.associative (a : Attributes) : Bool := a.has .associative
def Attributes.holdFirst (a : Attributes) : Bool := a.has .holdFirst
def Attributes.holdRest (a : Attributes) : Bool := a.has .holdRest
def Attributes.holdAll (a : Attributes) : Bool := a.has .holdAll
def Attributes.holdAllComplete (a : Attributes) : Bool := a.has .holdAllComplete
def Attributes.holdSequence (a : Attributes) : Bool := a.has .holdSequence

/-! ### Symbol table, after `src/luna_lang/src/context.rs`

The built-in function pointers stored inside `SymbolValue::BuiltIn` /
`BuiltInMut` are modelled by a name tag; their semantics live in
`applyBuiltin` below.  This mirrors the source, where `PartialEq` on
`SymbolValue` deliberately ignores the function pointer. -/

/-- Tags naming the native functions registered by
`src/luna_lang/src/builtins/mod.rs` (one per `built_in` closure). -/
inductive BuiltinTag where
  | setFn
  | setDelayedFn
  | headFn
  | headWrapFn
  | plusFn
  | timesFn
  | subtractFn
deriving Repr, DecidableEq

/-- Source `SymbolValue`: a stored rewrite rule — a ground definition or a native
built-in (read-only or context-mutating). -/
inductive SymbolValue where
  | definitions (pattern : Expr) (condition : Option Expr) (ground : Expr)
  | builtIn (pattern : Expr) (condition : Option Expr) (builtin : BuiltinTag)
  | builtInMut (pattern : Expr) (condition : Option Expr) (builtin : BuiltinTag)
deriving Repr, DecidableEq

/-- The pattern of a stored rule (`SymbolValue::pattern` accessor used by
`find_matching_definition`). -/
def SymbolValue.pattern : SymbolValue → Expr
  | .definitions p _ _ => p
  | .builtIn p _ _ => p
  | .builtInMut p _ _ => p

/-- The condition of a stored rule. -/
def SymbolValue.condition : SymbolValue → Option Expr
  | .definitions _ c _ => c
  | .builtIn _ c _ => c
  | .builtInMut _ c _ => c

/-- Source `impl PartialEq for SymbolValue`: `Definitions` compare pattern,
condition and ground; the built-in variants compare pattern and condition
only (the function pointer comparison is commented out in the source);
different variants are never equal. -/
def symbolValueEq : SymbolValue → SymbolValue → Bool
  | .definitions p1 c1 g1, .definitions p2 c2 g2 => p1 == p2 && c1 == c2 && g1 == g2
  | .builtIn p1 c1 _, .builtIn p2 c2 _ => p1 == p2 && c1 == c2
  | .builtInMut p1 c1 _, .builtInMut p2 c2 _ => p1 == p2 && c1 == c2
  | _, _ => false

/-- Source `Vec::contains` with the `SymbolValue` equality above. -/
def symbolValueContains (values : List SymbolValue) (v : SymbolValue) : Bool :=
  values.any (fun w => symbolValueEq w v)

/-- Source `SymbolDefinition`: the four ordered rule lists of a known symbol. -/
structure SymbolDefinition where
  ownValues : List SymbolValue
  upValues : List SymbolValue
  downValues : List SymbolValue
  subValues : List SymbolValue
deriving Repr, DecidableEq

/-- Source `SymbolDefinition::empty`. -/
def SymbolDefinition.empty : SymbolDefinition := ⟨[], [], [], []⟩

/-- The four value classes (`ValueType` used by `set_value`/`get_values`). -/
inductive ValueType where
  | ownValue
  | upValue
  | downValue
  | subValue
deriving Repr, DecidableEq

/-- Association-list update with `HashMap::insert` semantics: replace the
binding when the key is present, append it otherwise. -/
def alistInsert {α : Type} (key : String) (val : α) : List (String × α) → List (String × α)
  | [] => [(key, val)]
  | (k, v) :: rest =>
      if k = key then (k, val) :: rest else (k, v) :: alistInsert key val rest

/-- Association-list lookup (`HashMap::get`). -/
def alistGet {α : Type} (key : String) : List (String × α) → Option α
  | [] => none
  | (k, v) :: rest => if k = key then some v else alistGet key rest

/-- Source `Context`: per-symbol attributes and rule lists plus the monotonic
`state_version` counter. -/
structure Context where
  name : String
  attributes : List (String × Attributes)
  definitions : List (String × SymbolDefinition)
  stateVersion : Nat
deriving Repr, DecidableEq

/-- Source `Context::new`. -/
def Context.new (name : String) : Context := ⟨name, [], [], 0⟩

/-- Source `Context::get_attributes`: the stored bitfield, or empty when unknown. -/
def Context.getAttributes (ctx : Context) (symbol : String) : Attributes :=
  (alistGet symbol ctx.attributes).getD Attributes.empty

/-- Source `Context::set_attributes`: fails when `AttributesReadOnly` is held;
otherwise replaces the bitfield.  (The source does not touch
`state_version` here.) -/
def Context.setAttributes (ctx : Context) (symbol : String) (newAttributes : Attributes) :
    Except String Context :=
  let attributes := ctx.getAttributes symbol
  if attributes.attributesReadOnly then
    .error ("Symbol '" ++ symbol ++ "' has read-only attributes")
  else
    .ok { ctx with attributes := alistInsert symbol newAttributes ctx.attributes }

/-- Source `Context::get_definition`. -/
def Context.getDefinition (ctx : Context) (symbol : String) : Option SymbolDefinition :=
  alistGet symbol ctx.definitions

/-- Source `Context::get_definition_mut`: the record for the symbol, inserting an
empty record first when the symbol is unknown (`entry(..).or_insert_with`). -/
def Context.getDefinitionMut (ctx : Context) (symbol : String) : SymbolDefinition × Context :=
  match alistGet symbol ctx.definitions with
  | some d => (d, ctx)
  | none =>
      (SymbolDefinition.empty,
        { ctx with definitions := alistInsert symbol SymbolDefinition.empty ctx.definitions })

/-- Source `Context::set_own_value`: rejects read-only symbols; a value equal to a
stored one (under `SymbolValue` equality) is skipped, otherwise it is
appended and `state_version` is bumped. -/
def Context.setOwnValue (ctx : Context) (symbol : String) (value : SymbolValue) :
    Except String Context :=
  let attributes := ctx.getAttributes symbol
  if attributes.readOnly then
    .error ("Symbol '" ++ symbol ++ "' is read-only")
  else
    let (definition, ctx) := ctx.getDefinitionMut symbol
    if symbolValueContains definition.ownValues value then
      .ok ctx
    else
      let definition := { definition with ownValues := definition.ownValues ++ [value] }
      .ok { ctx with
              definitions := alistInsert symbol definition ctx.definitions,
              stateVersion := ctx.stateVersion + 1 }

/-- Source `Context::set_up_value`. -/
def Context.setUpValue (ctx : Context) (symbol : String) (value : SymbolValue) :
    Except String Context :=
  let attributes := ctx.getAttributes symbol
  if attributes.readOnly then
    .error ("Symbol '" ++ symbol ++ "' is read-only")
  else
    let (definition, ctx) := ctx.getDefinitionMut symbol
    if symbolValueContains definition.upValues value then
      .ok ctx
    else
      let definition := { definition with upValues := definition.upValues ++ [value] }
      .ok { ctx with
              definitions := alistInsert symbol definition ctx.definitions,
              stateVersion := ctx.stateVersion + 1 }

/-- Source `Context::set_down_value`. -/
def Context.setDownValue (ctx : Context) (symbol : String) (value : SymbolValue) :
    Except String Context :=
  let attributes := ctx.getAttributes symbol
  if attributes.readOnly then
    .error ("Symbol '" ++ symbol ++ "' is read-only")
  else
    let (definition, ctx) := ctx.getDefinitionMut symbol
    if symbolValueContains definition.downValues value then
      .ok ctx
    else
      let definition := { definition with downValues := definition.downValues ++ [value] }
      .ok { ctx with
              definitions := alistInsert symbol definition ctx.definitions,
              stateVersion := ctx.stateVersion + 1 }

/-- Source `Context::set_sub_value`. -/
def Context.setSubValue (ctx : Context) (symbol : String) (value : SymbolValue) :
    Except String Context :=
  let attributes := ctx.getAttributes symbol
  if attributes.readOnly then
    .error ("Symbol '" ++ symbol ++ "' is read-only")
  else
    let (definition, ctx) := ctx.getDefinitionMut symbol
    if symbolValueContains definition.subValues value then
      .ok ctx
    else
      let definition := { definition with subValues := definition.subValues ++ [value] }
      .ok { ctx with
              definitions := alistInsert symbol definition ctx.definitions,
              stateVersion := ctx.stateVersion + 1 }

/-- Modelled from the spec: `Context::set_value(symbol, value-type, rule)` is
called throughout `src/luna_lang/src/builtins/mod.rs` but its definition is
absent from the source tree; per spec §4.2 (`add_rule` with a value-type in
Own/Up/Down/Sub) it dispatches to the per-class setter. -/
def Context.setValue (ctx : Context) (symbol : String) (vt : ValueType) (value : SymbolValue) :
    Except String Context :=
  match vt with
  | .ownValue => ctx.setOwnValue symbol value
  | .upValue => ctx.setUpValue symbol value
  | .downValue => ctx.setDownValue symbol value
  | .subValue => ctx.setSubValue symbol value

/-- Modelled from the spec: `Context::get_values(symbol, value-type)` is
called by `find_matching_definition` but absent from the source tree; per
spec §4.2 (`get_values` returns the "ordered rule list or absent") it reads
the stored list of the requested class. -/
def Context.getValues (ctx : Context) (symbol : String) (vt : ValueType) :
    Option (List SymbolValue) :=
  (ctx.getDefinition symbol).map fun d =>
    match vt with
    | .ownValue => d.ownValues
    | .upValue => d.upValues
    | .downValue => d.downValues
    | .subValue => d.subValues

/-! ### Subset generator, after `src/luna_lang/src/matching/subsets/mod.rs`

The `BigInteger` bitset value is a `Nat`; `v & (!v + 1)` on an
arbitrary-precision two's-complement integer is the lowest set bit of a
positive `v`, computed here by `lowBit`. -/

/-- Counts set bits with structural fuel (`fuel = v` covers every bit of
`v`, since the bit length of a positive number never exceeds the number). -/
def popCountAux : Nat → Nat → Nat
  | 0, _ => 0
  | fuel + 1, v => if v = 0 then 0 else v % 2 + popCountAux fuel (v / 2)

/-- Number of set bits (`BigInteger::count_ones`). -/
def popCountNat (v : Nat) : Nat := popCountAux v v

/-- Lowest set bit of `v` with structural fuel; for positive `v` and
`fuel = v` this is exactly the `v & -v` of the source. -/
def lowBitAux : Nat → Nat → Nat
  | 0, _ => 0
  | fuel + 1, v => if v % 2 = 1 then 1 else 2 * lowBitAux fuel (v / 2)

/-- Lowest set bit (`v & (!v + 1)` in the source). -/
def lowBit (v : Nat) : Nat := lowBitAux v v

/-- Source `Subset`: a bitset over `n` positions enumerated in Gosper order. -/
structure Subset where
  n : Nat
  value : Nat
deriving Repr, DecidableEq

/-- Source `Subset::empty`. -/
def Subset.empty (n : Nat) : Subset := ⟨n, 0⟩

/-- Source `Subset::is_zero`. -/
def Subset.isZero (s : Subset) : Bool := s.value == 0

/-- Source `Subset::count_ones`. -/
def Subset.countOnes (s : Subset) : Nat := popCountNat s.value

/-- Source `Subset::get`: bit test. -/
def Subset.get (s : Subset) (idx : Nat) : Bool := testBitNat s.value idx

/-- Walks the value list, splitting members of the subset from the rest
(the body of `Subset::extract`). -/
def subsetExtractGo {α : Type} (s : Subset) : Nat → List α → List α × List α
  | _, [] => ([], [])
  | k, v :: rest =>
      let (sub, comp) := subsetExtractGo s (k + 1) rest
      if s.get k then (v :: sub, comp) else (sub, v :: comp)

/-- Source `Subset::extract`: the sublist selected by the bitset and its complement,
both in original order. -/
def Subset.extract {α : Type} (s : Subset) (values : List α) : List α × List α :=
  subsetExtractGo s 0 values

/-- Source `Subset::resize_next`: Gosper's next-subset-of-equal-popcount step,
growing the popcount when exhausted, bounded by `n` bit positions. -/
def Subset.resizeNext (s : Subset) (n : Nat) : Option Subset :=
  if n = 0 then none
  else if s.value = 0 then some ⟨n, 1⟩
  else
    let max := 2 ^ n
    let c := lowBit s.value
    let r := s.value + c
    let next := bitOr ((bitXor r s.value) / 4 / c) r
    if next < max then some ⟨n, next⟩
    else
      let bits := popCountNat s.value
      if bits < n then some ⟨n, 2 ^ (bits + 1) - 1⟩
      else none

/-- Source `Subset::next`. -/
def Subset.next (s : Subset) : Option Subset := s.resizeNext s.n

/-! ### Permutation generator, after `src/luna_lang/src/matching/permute/mod.rs`

`BitIndex32` (the set of not-yet-emitted element indices, popped by rank) is
modelled as the list of remaining indices. -/

/-- Source `BitIndex32::pop`: remove and return the element at the given rank. -/
def listPop {α : Type} (xs : List α) (k : Nat) : Option (α × List α) :=
  match xs.get? k with
  | none => none
  | some v => some (v, xs.eraseIdx k)

/-- Source `factorial128`: note the source quirk that `0 | 1 | 2` map to themselves,
so the "factorial" of 0 is 0 (there are no permutations of an empty list). -/
def factorial128 (n : Nat) : Nat :=
  match n with
  | 0 => 0
  | 1 => 1
  | 2 => 2
  | _ => ((List.range n).map (· + 1)).foldl (· * ·) 1

/-- Source `SinglePermutation32`: one factoradic-indexed permutation, emitted one
index at a time. -/
structure SinglePerm where
  elems : List Nat
  nextMod : Nat
  currentIdx : Nat
deriving Repr, DecidableEq

/-- Source `SinglePermutation32::new`: valid only when the index is in range. -/
def SinglePerm.new (nbElems nbPerms idx : Nat) : Option SinglePerm :=
  if nbPerms ≤ idx then none
  else some ⟨List.range nbElems, nbPerms / nbElems, idx⟩

/-- Source `impl Iterator for SinglePermutation32`: pop the next element index by
factoradic rank. -/
def SinglePerm.next (p : SinglePerm) : Option (Nat × SinglePerm) :=
  if p.elems.length = 0 then none
  else
    let bitNb := p.currentIdx / p.nextMod
    let currentIdx := p.currentIdx - bitNb * p.nextMod
    let nextMod := p.nextMod / (p.elems.length - 2 + 1)
    match listPop p.elems bitNb with
    | none => none
    | some (v, elems) => some (v, ⟨elems, nextMod, currentIdx⟩)

/-- Drives a `SinglePermutation32` to exhaustion (`.map(..).collect()` in the
callers); one element is popped per step, so the element count bounds it. -/
def singlePermToListAux : Nat → SinglePerm → List Nat
  | 0, _ => []
  | fuel + 1, p =>
      match p.next with
      | none => []
      | some (v, p') => v :: singlePermToListAux fuel p'

/-- The full index permutation encoded by a `SinglePermutation32`. -/
def SinglePerm.toList (p : SinglePerm) : List Nat :=
  singlePermToListAux p.elems.length p

/-- Source `PermutationGenerator32`: all permutations of `0..nb_elems` in factoradic
order. -/
structure PermGen where
  nbElems : Nat
  nbPerms : Nat
  nextIdx : Nat
deriving Repr, DecidableEq

/-- Source `PermutationGenerator32::new`: panics ("too many elements") above 32
elements.  Callers pass a Rust `usize` cast `as u8`, so the argument here is
already reduced modulo 256 at the call sites. -/
def PermGen.new (nbElems : Nat) : Except String PermGen :=
  if 32 < nbElems then .error "too many elements"
  else .ok ⟨nbElems, factorial128 nbElems, 0⟩

/-- Source `PermutationGenerator32::next` (via `nth(0)`): the permutation at the
current index, if in range; the index always advances. -/
def PermGen.next (g : PermGen) : Option SinglePerm × PermGen :=
  let stepResult := g.nextIdx
  let res := SinglePerm.new g.nbElems g.nbPerms stepResult
  (res, { g with nextIdx := stepResult + 1 })

/-! ### Associative function application generators, after
`src/luna_lang/src/matching/function_application/` -/

/-- Source `AFAGenerator`: enumerates the ways to group adjacent elements into
sub-applications of the head (`application_state` bits mark non-boundaries)
and to wrap leftover singletons (`singleton_state`). -/
structure AFAGen where
  function : NormalE
  exhausted : Bool
  singletonState : Subset
  applicationState : Subset
deriving Repr, DecidableEq

/-- Source `AFAGenerator::new`: exhausted at once for an empty element list. -/
def AFAGen.new (function : NormalE) : AFAGen :=
  if function.isEmpty then ⟨function, true, Subset.empty 0, Subset.empty 0⟩
  else ⟨function, false, Subset.empty 0, Subset.empty (function.len - 1)⟩

/-- The position loop inside `AFAGenerator::next`: walks positions
`1..=len`, emitting a grouped application at each boundary and wrapping or
passing through singletons; returns the built sequence and the singleton
count. -/
def afaBuildGo (g : AFAGen) :
    Nat → Nat → Nat → Nat → List Expr → List Expr × Nat
  | 0, _, _, singletonCount, acc => (acc.reverse, singletonCount)
  | remaining + 1, position, lastBoundary, singletonCount, acc =>
      if position = g.function.len ∨ ¬ g.applicationState.get (position - 1) then
        if 1 < position - lastBoundary then
          afaBuildGo g remaining (position + 1) position singletonCount
            (Expr.normal g.function.head
              ((g.function.elements.drop lastBoundary).take (position - lastBoundary)) :: acc)
        else
          let elem := g.function.elements.getD (position - 1) (Expr.sym "")
          if g.singletonState.get singletonCount then
            afaBuildGo g remaining (position + 1) position (singletonCount + 1)
              (Expr.normal g.function.head [elem] :: acc)
          else
            afaBuildGo g remaining (position + 1) position (singletonCount + 1) (elem :: acc)
      else
        afaBuildGo g remaining (position + 1) lastBoundary singletonCount acc

/-- Source `impl Iterator for AFAGenerator`: build the current grouping, then
advance the singleton state, falling back to the next application state and
finally to exhaustion. -/
def AFAGen.next (g : AFAGen) : Option (List Expr × AFAGen) :=
  if g.exhausted then none
  else
    let (resultSequence, singletonCount) := afaBuildGo g g.function.len 1 0 0 []
    match g.singletonState.resizeNext singletonCount with
    | some nextSingleton =>
        some (resultSequence, { g with singletonState := nextSingleton })
    | none =>
        match g.applicationState.next with
        | some nextApplication =>
            some (resultSequence,
              { g with singletonState := Subset.empty 0, applicationState := nextApplication })
        | none => some (resultSequence, { g with exhausted := true })

/-- Drives an `AFAGenerator`, collecting at most `cap` groupings (test
fixture helper; `.ok`-style capping is not needed since `AFAGen.next` is
total). -/
def afaCollect : Nat → AFAGen → List (List Expr)
  | 0, _ => []
  | cap + 1, g =>
      match g.next with
      | none => []
      | some (result, g') => result :: afaCollect cap g'

/-- Source `AFACGenerator`: the associative-commutative wrapper, iterating the AFA
generator over every permutation of the element list. -/
structure AFACGen where
  function : NormalE
  afaGenerator : AFAGen
  permutations : PermGen
deriving Repr, DecidableEq

/-- Source `AFACGenerator::new`: builds the permutation generator (panicking above
32 elements, after the `as u8` cast) and consumes the identity permutation,
which the initial AFA generator covers. -/
def AFACGen.new (function : NormalE) : Except String AFACGen :=
  match PermGen.new (function.len % 256) with
  | .error e => .error e
  | .ok permutations0 =>
      let (_, permutations) := permutations0.next
      .ok ⟨function, AFAGen.new function, permutations⟩

/-- Source `impl Iterator for AFACGenerator`: drain the current AFA generator, then
restart it on the next permutation of the element list. -/
def AFACGen.next (g : AFACGen) : Option (List Expr × AFACGen) :=
  match g.afaGenerator.next with
  | some (results, afa') => some (results, { g with afaGenerator := afa' })
  | none =>
      match g.permutations.next with
      | (none, _) => none
      | (some perm, perms') =>
          let permutedFunction : NormalE :=
            ⟨g.function.head,
              (perm.toList).map fun n => g.function.elements.getD n (Expr.sym "")⟩
          match (AFAGen.new permutedFunction).next with
          | none => none
          | some (results, afa') => some (results, ⟨g.function, afa', perms'⟩)

/-! ### Match equations, results and solution sets, used across
`src/luna_lang/src/matching/` (the module's shared type definitions are
absent from the source tree; the shapes below are the ones every rule file
and `matcher.rs` consume).  `SolutionSet` is the `HashMap<Symbol, Expr>` of
bindings, modelled as an association list kept sorted by key so that list
equality is map equality. -/

structure MatchEquation where
  pattern : Expr
  ground : Expr
deriving Repr, DecidableEq

inductive MatchResult where
  | substitution (var : String) (ground : Expr)
  | matchEquation (me : MatchEquation)
deriving Repr, DecidableEq

abbrev MatchResultList := List MatchResult

abbrev SolutionSet := List (String × Expr)

/-- Source `HashMap::insert` on a solution set (sorted-by-key representation). -/
def solInsert (key : String) (val : Expr) : SolutionSet → SolutionSet
  | [] => [(key, val)]
  | (k, v) :: rest =>
      match compare key k with
      | .lt => (key, val) :: (k, v) :: rest
      | .eq => (key, val) :: rest
      | .gt => (k, v) :: solInsert key val rest

/-- Source `HashMap::remove` on a solution set. -/
def solRemove (key : String) (s : SolutionSet) : SolutionSet :=
  s.filter fun kv => kv.1 ≠ key

/-- Source `HashMap::get` / indexing on a solution set. -/
def solGet (key : String) : SolutionSet → Option Expr
  | [] => none
  | (k, v) :: rest => if k = key then some v else solGet key rest

/-! ### Match generators, one constructor per rule file under
`src/luna_lang/src/matching/rule_*.rs` (the rules `matcher.rs` actually
dispatches to).  Each constructor carries exactly the state fields of the
corresponding Rust struct. -/

inductive Gen where
  | ruleT (me : MatchEquation) (exhausted : Bool)
  | ruleVE (me : MatchEquation) (var : Option String) (exhausted : Bool)
  | ruleFVE (pattern ground : NormalE) (var : Option String) (exhausted : Bool)
  | ruleDNC (pattern ground : NormalE) (exhausted : Bool)
  | ruleDC (pattern ground : NormalE) (termIdx : Nat)
  | ruleSVEF (pattern ground : NormalE) (var : Option String)
      (emptyProduced : Bool) (groundSequence : List Expr)
  | ruleSVEC (pattern ground : NormalE) (var : Option String)
      (emptyProduced : Bool) (subset : Subset) (permutations : PermGen)
  | ruleSVEA (pattern ground : NormalE) (var : Option String)
      (groundSequence : List Expr) (afaGenerator : Option AFAGen)
  | ruleSVEAC (pattern ground : NormalE) (var : Option String)
      (subset : Subset) (complement : List Expr) (afacGenerator : Option AFACGen)
deriving Repr

/-- Source `MatchGenerator::match_equation`: the equation a generator was built
from, restored on backtracking. -/
def Gen.matchEquationOf : Gen → MatchEquation
  | .ruleT me _ => me
  | .ruleVE me _ _ => me
  | .ruleFVE p g _ _ => ⟨p.toExpr, g.toExpr⟩
  | .ruleDNC p g _ => ⟨p.toExpr, g.toExpr⟩
  | .ruleDC p g _ => ⟨p.toExpr, g.toExpr⟩
  | .ruleSVEF p g _ _ _ => ⟨p.toExpr, g.toExpr⟩
  | .ruleSVEC p g _ _ _ _ => ⟨p.toExpr, g.toExpr⟩
  | .ruleSVEA p g _ _ _ => ⟨p.toExpr, g.toExpr⟩
  | .ruleSVEAC p g _ _ _ _ => ⟨p.toExpr, g.toExpr⟩

/-- Source `RuleT::try_rule`: fires when pattern and ground are equal. -/
def tryRuleT (me : MatchEquation) : Option Gen :=
  if Expr.beq me.pattern me.ground then some (.ruleT me false) else none

/-- Source `RuleVE::try_rule`: an individual blank (named or not) against any
ground, or a sequence blank against a `Sequence[...]` ground of admissible
arity. -/
def tryRuleVE (me : MatchEquation) : Option Gen :=
  match parseIndividualVariable me.pattern with
  | some (var, _) => some (.ruleVE me var false)
  | none =>
      match parseAnySequenceVariable me.pattern with
      | some (matchesEmpty, var, _) =>
          match trySequence me.ground with
          | some gelements =>
              if ¬ matchesEmpty ∧ gelements.isEmpty then none
              else some (.ruleVE me var false)
          | none => none
      | none => none

/-- Source `RuleFVE::try_rule`: pattern `h_[...]` against ground `g[...]`. -/
def tryRuleFVE (me : MatchEquation) : Option Gen :=
  match me.pattern.tryNormal, me.ground.tryNormal with
  | some p, some g =>
      match parseIndividualVariable p.head with
      | some (var, _) => some (.ruleFVE p g var false)
      | none => none
  | _, _ => none

/-- Source `RuleDNC::try_rule`: decomposition under a non-commutative head; both
sides non-empty normals, first pattern element not a sequence variable. -/
def tryRuleDNC (me : MatchEquation) : Option Gen :=
  match me.pattern.tryNormal, me.ground.tryNormal with
  | some p, some g =>
      match p.element 0, g.element 0 with
      | some p0, some _ =>
          if isAnySequenceVariable p0 then none else some (.ruleDNC p g false)
      | _, _ => none
  | _, _ => none

/-- Source `RuleDC::try_rule`: decomposition under a commutative head. -/
def tryRuleDC (me : MatchEquation) : Option Gen :=
  match me.pattern.tryNormal, me.ground.tryNormal with
  | some p, some g =>
      match p.element 0, g.element 0 with
      | some p0, some _ =>
          if isAnySequenceVariable p0 then none else some (.ruleDC p g 0)
      | _, _ => none
  | _, _ => none

/-- Source `RuleSVEF::try_rule`: first pattern element is a sequence variable,
free head. -/
def tryRuleSVEF (me : MatchEquation) : Option Gen :=
  match me.pattern.tryNormal, me.ground.tryNormal with
  | some p, some g =>
      match p.element 0 with
      | some p0 =>
          match parseAnySequenceVariable p0 with
          | some (matchesEmpty, var, _) =>
              some (.ruleSVEF p g var (!matchesEmpty) [])
          | none => none
      | none => none
  | _, _ => none

/-- Source `RuleSVEC::try_rule`: first pattern element is a sequence variable,
commutative head; starts from the empty subset with a fresh 1-element
permutation generator (`PermutationGenerator32::new(1)`, below its panic
bound). -/
def tryRuleSVEC (me : MatchEquation) : Option Gen :=
  match me.pattern.tryNormal, me.ground.tryNormal with
  | some p, some g =>
      match p.element 0 with
      | some p0 =>
          match parseAnySequenceVariable p0 with
          | some (matchesEmpty, var, _) =>
              some (.ruleSVEC p g var (!matchesEmpty) (Subset.empty g.len)
                ⟨1, factorial128 1, 0⟩)
          | none => none
      | none => none
  | _, _ => none

/-- Source `RuleSVEA::try_rule` / `RuleSVEA::new`: associative head; a `None` AFA
generator is the marker that the empty sequence is still to be produced,
otherwise an exhausted AFA generator over no elements starts the search. -/
def tryRuleSVEA (me : MatchEquation) : Option Gen :=
  match me.pattern.tryNormal, me.ground.tryNormal with
  | some p, some g =>
      match p.element 0 with
      | some p0 =>
          match parseAnySequenceVariable p0 with
          | some (matchesEmpty, var, _) =>
              some (.ruleSVEA p g var []
                (if matchesEmpty then none else some (AFAGen.new ⟨g.head, []⟩)))
          | none => none
      | none => none
  | _, _ => none

/-- Source `RuleSVEAC::try_rule` / `RuleSVEAC::new`: associative-commutative head.
The initial AFAC generator is over an empty element list, for which
`AFACGenerator::new` cannot reach its panic. -/
def tryRuleSVEAC (me : MatchEquation) : Option Gen :=
  match me.pattern.tryNormal, me.ground.tryNormal with
  | some p, some g =>
      match p.element 0 with
      | some p0 =>
          match parseAnySequenceVariable p0 with
          | some (matchesEmpty, var, _) =>
              match AFACGen.new ⟨g.head, []⟩ with
              | .ok afac =>
                  some (.ruleSVEAC p g var (Subset.empty g.len) []
                    (if matchesEmpty then none else some afac))
              | .error _ => none
          | none => none
      | none => none
  | _, _ => none

/-- Source `RuleSVEF::make_next`: the remaining-function equation plus the binding
of the named variable to the consumed prefix as a `Sequence`. -/
def sveFMakeNext (p g : NormalE) (var : Option String) (groundSequence : List Expr) :
    MatchResultList :=
  let newEq := MatchResult.matchEquation
    ⟨Expr.normal p.head (p.elements.drop 1),
     Expr.normal g.head (g.elements.drop groundSequence.length)⟩
  match var with
  | some v =>
      [newEq, .substitution v (Expr.normal (.sym "Sequence") groundSequence)]
  | none => [newEq]

/-- Source `RuleSVEA::make_next`. -/
def sveAMakeNext (p g : NormalE) (var : Option String) (groundSequenceLen : Nat)
    (orderedSequence : List Expr) : MatchResultList :=
  let resultEquation := MatchResult.matchEquation
    ⟨Expr.normal p.head (p.elements.drop 1),
     Expr.normal g.head (g.elements.drop groundSequenceLen)⟩
  match var with
  | some v =>
      [resultEquation, .substitution v (Expr.normal (.sym "Sequence") orderedSequence)]
  | none => [resultEquation]

/-- Source `RuleSVEAC::make_next`. -/
def sveACMakeNext (p g : NormalE) (var : Option String) (complement : List Expr)
    (orderedSequence : List Expr) : MatchResultList :=
  let resultEquation := MatchResult.matchEquation
    ⟨Expr.normal p.head (p.elements.drop 1), Expr.normal g.head complement⟩
  match var with
  | some v =>
      [resultEquation, .substitution v (Expr.normal (.sym "Sequence") orderedSequence)]
  | none => [resultEquation]

/-- One `next()` step of a match generator, after each rule's
`impl Iterator`.  A panic inside a generator (the permutation generator's
arity bound, an `unwrap`) is an `.error`. -/
def genNext : Gen → Except String (Option (MatchResultList × Gen))
  | .ruleT me exhausted =>
      if exhausted then .ok none
      else .ok (some ([], .ruleT me true))
  | .ruleVE me var exhausted =>
      if exhausted then .ok none
      else
        match var with
        | some v => .ok (some ([.substitution v me.ground], .ruleVE me var true))
        | none => .ok (some ([], .ruleVE me var true))
  | .ruleFVE p g var exhausted =>
      if exhausted then .ok none
      else
        let newEq := MatchResult.matchEquation
          ⟨Expr.normal g.head p.elements, g.toExpr⟩
        match var with
        | some v => .ok (some ([newEq, .substitution v g.head], .ruleFVE p g var true))
        | none => .ok (some ([newEq], .ruleFVE p g var true))
  | .ruleDNC p g exhausted =>
      if exhausted then .ok none
      else
        let varEq := MatchResult.matchEquation
          ⟨p.elements.getD 0 (.sym ""), g.elements.getD 0 (.sym "")⟩
        let funcEq := MatchResult.matchEquation
          ⟨Expr.normal p.head (p.elements.drop 1), Expr.normal g.head (g.elements.drop 1)⟩
        .ok (some ([varEq, funcEq], .ruleDNC p g true))
  | .ruleDC p g termIdx =>
      if termIdx = g.len then .ok none
      else
        let varEq := MatchResult.matchEquation
          ⟨p.elements.getD 0 (.sym ""), g.elements.getD termIdx (.sym "")⟩
        let funcEq := MatchResult.matchEquation
          ⟨Expr.normal p.head (p.elements.drop 1),
           Expr.normal g.head (g.elements.eraseIdx termIdx)⟩
        .ok (some ([varEq, funcEq], .ruleDC p g (termIdx + 1)))
  | .ruleSVEF p g var emptyProduced groundSequence =>
      if ¬ emptyProduced then
        .ok (some (sveFMakeNext p g var groundSequence,
          .ruleSVEF p g var true groundSequence))
      else
        match g.element groundSequence.length with
        | none => .ok none
        | some nextElement =>
            let groundSequence := groundSequence ++ [nextElement]
            .ok (some (sveFMakeNext p g var groundSequence,
              .ruleSVEF p g var emptyProduced groundSequence))
  | .ruleSVEC p g var emptyProduced subset permutations =>
      if subset.isZero ∧ ¬ emptyProduced then
        let matchEq := MatchResult.matchEquation
          ⟨Expr.normal p.head (p.elements.drop 1), g.toExpr⟩
        let results := match var with
          | some v => [matchEq, .substitution v (Expr.normal (.sym "Sequence") [])]
          | none => [matchEq]
        .ok (some (results, .ruleSVEC p g var true subset permutations))
      else
        let advance1 : Option Subset :=
          if subset.isZero then subset.next else some subset
        match advance1 with
        | none => .ok none
        | some subset =>
            let afterPerm : Except String (Option (SinglePerm × Subset × PermGen)) :=
              match permutations.next with
              | (some perm, permutations') => .ok (some (perm, subset, permutations'))
              | (none, _) =>
                  match subset.next with
                  | none => .ok none
                  | some subset' =>
                      match PermGen.new (subset'.countOnes % 256) with
                      | .error e => .error e
                      | .ok permutations1 =>
                          match permutations1.next with
                          | (none, _) => .ok none
                          | (some perm, permutations') =>
                              .ok (some (perm, subset', permutations'))
            match afterPerm with
            | .error e => .error e
            | .ok none => .ok none
            | .ok (some (perm, subset, permutations)) =>
                let (sub, comp) := subset.extract g.elements
                let matchEq := MatchResult.matchEquation
                  ⟨Expr.normal p.head (p.elements.drop 1), Expr.normal g.head comp⟩
                let results := match var with
                  | some v =>
                      [matchEq, .substitution v (Expr.normal (.sym "Sequence")
                        ((perm.toList).map fun idx => sub.getD idx (.sym "")))]
                  | none => [matchEq]
                .ok (some (results, .ruleSVEC p g var emptyProduced subset permutations))
  | .ruleSVEA p g var groundSequence afaGenerator =>
      match afaGenerator with
      | none =>
          .ok (some (sveAMakeNext p g var groundSequence.length [],
            .ruleSVEA p g var groundSequence (some (AFAGen.new ⟨g.head, []⟩))))
      | some afa =>
          match afa.next with
          | some (orderedSequence, afa') =>
              .ok (some (sveAMakeNext p g var groundSequence.length orderedSequence,
                .ruleSVEA p g var groundSequence (some afa')))
          | none =>
              match g.element groundSequence.length with
              | none => .ok none
              | some nextElement =>
                  let groundSequence := groundSequence ++ [nextElement]
                  match (AFAGen.new ⟨g.head, groundSequence⟩).next with
                  | none => .error "called Option unwrap on a None value"
                  | some (orderedSequence, afa') =>
                      .ok (some (sveAMakeNext p g var groundSequence.length orderedSequence,
                        .ruleSVEA p g var groundSequence (some afa')))
  | .ruleSVEAC p g var subset complement afacGenerator =>
      match afacGenerator with
      | none =>
          match AFACGen.new ⟨g.head, []⟩ with
          | .error e => .error e
          | .ok afac =>
              .ok (some (sveACMakeNext p g var g.elements [],
                .ruleSVEAC p g var subset g.elements (some afac)))
      | some afac =>
          match afac.next with
          | some (orderedSequence, afac') =>
              .ok (some (sveACMakeNext p g var complement orderedSequence,
                .ruleSVEAC p g var subset complement (some afac')))
          | none =>
              match subset.next with
              | none => .ok none
              | some subset' =>
                  let (sub, comp) := subset'.extract g.elements
                  match AFACGen.new ⟨g.head, sub⟩ with
                  | .error e => .error e
                  | .ok afac1 =>
                      match afac1.next with
                      | none => .ok none
                      | some (orderedSequence, afac') =>
                          .ok (some (sveACMakeNext p g var comp orderedSequence,
                            .ruleSVEAC p g var subset' comp (some afac')))

/-! ### The matcher state machine, after `src/luna_lang/src/matching/matcher.rs` -/

/-- Entries of the match (audit) stack. -/
inductive StackEntry where
  | generator (gen : Gen)
  | substitution (var : String)
  | producedMatchEquations (count : Nat)
deriving Repr

/-- Source `Matcher`: the audit stack, the pending match equations and the current
bindings (stack tops are list heads). -/
structure MatcherState where
  matchStack : List StackEntry
  equationStack : List MatchEquation
  substitutions : SolutionSet
deriving Repr

/-- Source `Matcher::new`. -/
def matcherInit (pattern ground : Expr) : MatcherState :=
  ⟨[], [⟨pattern, ground⟩], []⟩

/-- Source `Matcher::select_rule`: pop the top equation and build the generator of
the first applicable rule, dispatching on the ground head's Commutative and
Associative attributes; when no rule fits, the equation is pushed back. -/
def selectRule (ctx : Context) (st : MatcherState) : Option Gen × MatcherState :=
  match st.equationStack with
  | [] => (none, st)
  | me :: rest =>
      let popped : MatcherState := { st with equationStack := rest }
      match tryRuleT me with
      | some gen => (some gen, popped)
      | none =>
          match tryRuleVE me with
          | some gen => (some gen, popped)
          | none =>
              match tryRuleFVE me with
              | some gen => (some gen, popped)
              | none =>
                  match me.pattern.tryNormal, me.ground.tryNormal with
                  | some p, some g =>
                      match p.tryHeadSymbol, g.tryHeadSymbol with
                      | some phead, some ghead =>
                          if phead ≠ ghead then (none, st)
                          else
                            let groundAttributes := ctx.getAttributes ghead
                            match groundAttributes.commutative,
                                  groundAttributes.associative with
                            | false, false =>
                                match tryRuleDNC me with
                                | some gen => (some gen, popped)
                                | none =>
                                    match tryRuleSVEF me with
                                    | some gen => (some gen, popped)
                                    | none => (none, st)
                            | true, false =>
                                match tryRuleDC me with
                                | some gen => (some gen, popped)
                                | none =>
                                    match tryRuleSVEC me with
                                    | some gen => (some gen, popped)
                                    | none => (none, st)
                            | false, true =>
                                match tryRuleSVEA me with
                                | some gen => (some gen, popped)
                                | none =>
                                    match tryRuleDNC me with
                                    | some gen => (some gen, popped)
                                    | none => (none, st)
                            | true, true =>
                                match tryRuleSVEAC me with
                                | some gen => (some gen, popped)
                                | none =>
                                    match tryRuleDC me with
                                    | some gen => (some gen, popped)
                                    | none => (none, st)
                      | _, _ => (none, st)
                  | _, _ => (none, st)

/-- Source `Matcher::undo`: unwind the audit stack to the nearest generator,
removing recorded substitutions and truncating produced equations; the
generator itself is popped and returned.  An empty stack is the source's
`unwrap` panic, reported as `none`. -/
def undoGo : List StackEntry → List MatchEquation → SolutionSet →
    Option (Gen × List StackEntry × List MatchEquation × SolutionSet)
  | [], _, _ => none
  | .generator g :: rest, eqs, subs => some (g, rest, eqs, subs)
  | .substitution v :: rest, eqs, subs => undoGo rest eqs (solRemove v subs)
  | .producedMatchEquations k :: rest, eqs, subs => undoGo rest (eqs.drop k) subs

/-- Source `Matcher::process_match_list`: record each result — substitutions are
inserted into the bindings and logged; equations are pushed and counted,
with a single produced-equations entry logged at the end. -/
def processMatchList (results : MatchResultList) (st : MatcherState) : MatcherState :=
  let step := results.foldl
    (fun (acc : MatcherState × Nat) r =>
      match r with
      | .substitution v g =>
          ({ acc.1 with
              substitutions := solInsert v g acc.1.substitutions,
              matchStack := .substitution v :: acc.1.matchStack }, acc.2)
      | .matchEquation me =>
          ({ acc.1 with equationStack := me :: acc.1.equationStack }, acc.2 + 1))
    (st, 0)
  if 0 < step.2 then
    { step.1 with matchStack := .producedMatchEquations step.2 :: step.1.matchStack }
  else step.1

/-- The `'step1`/`'step2` loops of `Matcher::next`, with explicit fuel
(`true` = the select-rule phase, `false` = the apply phase).  Fuel
exhaustion is the "out of fuel" error, never produced by the modelled
program itself. -/
def matcherLoop (ctx : Context) : Nat → MatcherState → Bool →
    Except String (Option (SolutionSet × MatcherState))
  | 0, _, _ => .error "out of fuel"
  | fuel + 1, st, true =>
      match selectRule ctx st with
      | (some gen, st') =>
          matcherLoop ctx fuel { st' with matchStack := .generator gen :: st'.matchStack } false
      | (none, st') =>
          if st'.matchStack.isEmpty then .ok none
          else
            match undoGo st'.matchStack st'.equationStack st'.substitutions with
            | none => .error "called Option unwrap on a None value"
            | some (g, ms, eqs, subs) =>
                matcherLoop ctx fuel ⟨.generator g :: ms, eqs, subs⟩ false
  | fuel + 1, st, false =>
      match st.matchStack with
      | .generator gen :: msRest =>
          match genNext gen with
          | .error e => .error e
          | .ok (some (results, gen')) =>
              let st' := processMatchList results
                ⟨.generator gen' :: msRest, st.equationStack, st.substitutions⟩
              if st'.equationStack.isEmpty then .ok (some (st'.substitutions, st'))
              else matcherLoop ctx fuel st' true
          | .ok none =>
              match undoGo st.matchStack st.equationStack st.substitutions with
              | none => .error "called Option unwrap on a None value"
              | some (g, ms, eqs, subs) =>
                  let st' : MatcherState := ⟨ms, g.matchEquationOf :: eqs, subs⟩
                  if st'.matchStack.isEmpty then .ok none
                  else
                    match undoGo st'.matchStack st'.equationStack st'.substitutions with
                    | none => .error "called Option unwrap on a None value"
                    | some (g2, ms2, eqs2, subs2) =>
                        matcherLoop ctx fuel ⟨.generator g2 :: ms2, eqs2, subs2⟩ false
      | _ :: _ => .error "Expected a MatchGenerator"
      | [] => .error "Expected value on the match stack. Found nothing."

/-- Source `Matcher::next` (`impl Iterator for Matcher`): the next solution, if
any, together with the matcher state to resume from. -/
def matcherNext (ctx : Context) (fuel : Nat) (st : MatcherState) :
    Except String (Option (SolutionSet × MatcherState)) :=
  if st.equationStack.isEmpty ∧ st.matchStack.isEmpty then .ok none
  else matcherLoop ctx fuel st true

/-- Drives a matcher, collecting at most `cap` solutions (the test
fixtures' `collect`). -/
def matcherCollect (ctx : Context) (fuel : Nat) : Nat → MatcherState →
    Except String (List SolutionSet)
  | 0, _ => .ok []
  | cap + 1, st =>
      match matcherNext ctx fuel st with
      | .error e => .error e
      | .ok none => .ok []
      | .ok (some (sol, st')) =>
          match matcherCollect ctx fuel cap st' with
          | .error e => .error e
          | .ok sols => .ok (sol :: sols)

/-! ### Evaluator, after `src/luna_lang/src/evaluate.rs` -/

/-- Source `EvalResult`: an evaluation outcome tagged with whether it changed the
expression. -/
inductive EvalRes where
  | changed (e : Expr)
  | unchanged (e : Expr)
deriving Repr, DecidableEq

/-- Source `EvalResult::is_changed`. -/
def EvalRes.isChanged : EvalRes → Bool
  | .changed _ => true
  | .unchanged _ => false

/-- Source `EvalResult::expr` / `into_expr`. -/
def EvalRes.expr : EvalRes → Expr
  | .changed e => e
  | .unchanged e => e

mutual

/-- Source `replace_all`: substitute bound pattern variables (by symbol name) into
a template; the result is tagged `Changed` only when a substitution
actually happened. -/
def replaceAll (bindings : SolutionSet) : Expr → EvalRes
  | .sym s =>
      match solGet s bindings with
      | some substitution => .changed substitution
      | none => .unchanged (.sym s)
  | .normal h es =>
      let headRes := replaceAll bindings h
      let elemsRes := replaceAllList bindings es
      let newExpr := Expr.normal headRes.expr elemsRes.1
      if headRes.isChanged || elemsRes.2 then .changed newExpr else .unchanged newExpr
  | .str s => .unchanged (.str s)
  | .int n => .unchanged (.int n)
  | .real r => .unchanged (.real r)

/-- Source `replace_all` mapped across an element list, or-ing the changed flags. -/
def replaceAllList (bindings : SolutionSet) : List Expr → List Expr × Bool
  | [] => ([], false)
  | e :: rest =>
      let r := replaceAll bindings e
      let rs := replaceAllList bindings rest
      (r.expr :: rs.1, r.isChanged || rs.2)

end

/-! ### Built-in registry, after `src/luna_lang/src/builtins/mod.rs`

The `parse!("...")` pattern literals are written out in their desugared
form (`x_` is `Pattern[x, Blank[]]`, `xs___` is
`Pattern[xs, BlankNullSequence[]]`, per `parse_pattern` in
`src/luna_lang/src/parsing/mod.rs`). -/

/-- The desugared form of the pattern literal `n_`. -/
def patBlank (n : String) : Expr :=
  .normal (.sym "Pattern") [.sym n, .normal (.sym "Blank") []]

/-- The desugared form of the pattern literal `n___`. -/
def patBlankNullSeq (n : String) : Expr :=
  .normal (.sym "Pattern") [.sym n, .normal (.sym "BlankNullSequence") []]

/-- Source `declare_rule`: splits a trailing `Condition`, wraps the rule as a
`Definitions` value and registers it as an OwnValue (symbol pattern) or
DownValue (normal pattern); any other pattern is the `todo!()` panic, and
a nameless pattern is the `unwrap` panic. -/
def declareRule (pattern ground : Expr) (ctx : Context) : Except String Context :=
  let extracted := extractCondition ground
  let value := SymbolValue.definitions pattern extracted.2 extracted.1
  match pattern.name with
  | none => .error "called Option unwrap on a None value"
  | some name =>
      match pattern with
      | .sym _ => ctx.setValue name .ownValue value
      | .normal _ _ => ctx.setValue name .downValue value
      | _ => .error "not yet implemented"

/-- The integer/real folding loop shared by the `Plus` and `Times`
built-ins, returning (non-numeric elements, integer accumulator, real
accumulator, seen-real flag). -/
def numericFold (combineInt : Int → Int → Int) (combineReal : Int → Int → Int) :
    List Expr → Int → Int → Bool → List Expr × Int × Int × Bool
  | [], intAcc, realAcc, seenReal => ([], intAcc, realAcc, seenReal)
  | e :: rest, intAcc, realAcc, seenReal =>
      match e with
      | .int n => numericFold combineInt combineReal rest (combineInt intAcc n) realAcc seenReal
      | .real r => numericFold combineInt combineReal rest intAcc (combineReal realAcc r) true
      | _ =>
          let out := numericFold combineInt combineReal rest intAcc realAcc seenReal
          (e :: out.1, out.2)

/-- One native built-in function body (the `built_in` closures of
`src/luna_lang/src/builtins/mod.rs`), dispatched by tag.  A missing
binding is the `HashMap` index panic; a non-`Sequence` binding for
`exprs___` is the `expect` panic. -/
def applyBuiltin (tag : BuiltinTag) (arguments : SolutionSet) (expr : Expr) (ctx : Context) :
    Except String (EvalRes × Context) :=
  match tag with
  | .setFn =>
      match solGet "lhs" arguments, solGet "rhs" arguments with
      | some pattern, some ground =>
          match declareRule pattern ground ctx with
          | .error e => .error e
          | .ok ctx =>
              .ok (.changed (.normal (.sym "Hold") [ground]), ctx)
      | _, _ => .error "key not found in arguments"
  | .setDelayedFn =>
      match solGet "lhs" arguments, solGet "rhs" arguments with
      | some pattern, some ground =>
          match declareRule pattern ground ctx with
          | .error e => .error e
          | .ok ctx => .ok (.changed (.sym "Null"), ctx)
      | _, _ => .error "key not found in arguments"
  | .headFn =>
      match solGet "expr" arguments with
      | some e => .ok (.changed e.headE, ctx)
      | none => .error "key not found in arguments"
  | .headWrapFn =>
      match solGet "expr" arguments, solGet "h" arguments with
      | some e, some h => .ok (.changed (.normal h [e.headE]), ctx)
      | _, _ => .error "key not found in arguments"
  | .plusFn =>
      match solGet "exprs" arguments with
      | none => .error "key not found in arguments"
      | some exprs =>
          match trySequence exprs with
          | none => .error "expected exprs___ to match Sequence"
          | some exprElements =>
              let folded := numericFold (· + ·) (· + ·) exprElements 0 0 false
              let newElements :=
                if folded.2.2.2 then folded.1 ++ [.real (folded.2.2.1 + folded.2.1)]
                else if folded.2.1 ≠ 0 then folded.1 ++ [.int folded.2.1]
                else folded.1
              if newElements.length = 0 then .ok (.changed (.int 0), ctx)
              else if newElements.length = 1 then
                .ok (.changed (newElements.getD 0 (.sym "")), ctx)
              else if newElements ≠ exprElements then
                .ok (.changed (.normal (.sym "Plus") newElements), ctx)
              else .ok (.unchanged expr, ctx)
  | .timesFn =>
      match solGet "exprs" arguments with
      | none => .error "key not found in arguments"
      | some exprs =>
          match trySequence exprs with
          | none => .error "expected exprs___ to match Sequence"
          | some exprElements =>
              let folded := numericFold (· * ·) (· * ·) exprElements 1 1 false
              let newElements :=
                if folded.2.2.2 then folded.1 ++ [.real (folded.2.2.1 * folded.2.1)]
                else if folded.2.1 ≠ 0 then folded.1 ++ [.int folded.2.1]
                else folded.1
              if newElements.length = 0 then .ok (.changed (.int 1), ctx)
              else if newElements.length = 1 then
                .ok (.changed (newElements.getD 0 (.sym "")), ctx)
              else if newElements ≠ exprElements then
                .ok (.changed (.normal (.sym "Times") newElements), ctx)
              else .ok (.unchanged expr, ctx)
  | .subtractFn =>
      match solGet "lhs" arguments, solGet "rhs" arguments with
      | some lhs, some rhs =>
          .ok (.changed (.normal (.sym "Plus")
            [lhs, .normal (.sym "Times") [.int (-1), rhs]]), ctx)
      | _, _ => .error "key not found in arguments"

/-- Source `UnevaluatedRule`: a matched rule awaiting application. -/
structure UnevaluatedRule where
  value : SymbolValue
  bindings : SolutionSet
deriving Repr

/-- Source `UnevaluatedRule::apply`: substitute into a ground template, or run the
native built-in. -/
def UnevaluatedRule.apply (ur : UnevaluatedRule) (expr : Expr) (ctx : Context) :
    Except String (EvalRes × Context) :=
  match ur.value with
  | .definitions _ _ ground => .ok (replaceAll ur.bindings ground, ctx)
  | .builtIn _ _ tag => applyBuiltin tag ur.bindings expr ctx
  | .builtInMut _ _ tag => applyBuiltin tag ur.bindings expr ctx

/-- The per-value loop of `find_matching_definition`: first value whose
pattern matches wins; a condition on a matched rule is the `todo!()`
panic. -/
def findMatchingGo (ctx : Context) (mFuel : Nat) (ground : Expr) :
    List SymbolValue → Except String (Option UnevaluatedRule)
  | [] => .ok none
  | value :: rest =>
      match matcherNext ctx mFuel (matcherInit value.pattern ground) with
      | .error e => .error e
      | .ok none => findMatchingGo ctx mFuel ground rest
      | .ok (some (bindings, _)) =>
          match value.condition with
          | some _ => .error "not yet implemented"
          | none => .ok (some ⟨value, bindings⟩)

/-- Source `find_matching_definition`: scan the symbol's rule list of the given
class for the first matching rule. -/
def findMatchingDefinition (mFuel : Nat) (ground : Expr) (symbol : String)
    (vt : ValueType) (ctx : Context) : Except String (Option UnevaluatedRule) :=
  match ctx.getValues symbol vt with
  | none => .ok none
  | some values => findMatchingGo ctx mFuel ground values

mutual

/-- Source `evaluate_step`: one evaluation pass — symbols consult OwnValues;
normals evaluate head and (unheld) elements left to right, then consult
the head symbol's DownValues; other atoms are inert.  `sFuel` bounds the
recursion depth (structural in the source), `mFuel` the matcher loops. -/
def evaluateStep : Nat → Nat → Expr → Context → Except String (EvalRes × Context)
  | 0, _, _, _ => .error "out of fuel"
  | _ + 1, mFuel, .sym symbol, ctx =>
      (match findMatchingDefinition mFuel (.sym symbol) symbol .ownValue ctx with
      | .error msg => .error msg
      | .ok none => .ok (.unchanged (.sym symbol), ctx)
      | .ok (some unevaluatedRule) => unevaluatedRule.apply (.sym symbol) ctx)
  | sFuel + 1, mFuel, .normal headExpr elems, ctx =>
      (match evaluateStep sFuel mFuel headExpr ctx with
      | .error msg => .error msg
      | .ok (headRes, ctx) =>
          let headEval := headRes.expr
          let attributes :=
            match headEval.name with
            | none => Attributes.empty
            | some nm => ctx.getAttributes nm
          match evalElements sFuel mFuel attributes elems 0 ctx with
          | .error msg => .error msg
          | .ok (elementsEval, changedElems, ctx) =>
              let changed := headRes.isChanged || changedElems
              let newExpr := Expr.normal headEval elementsEval
              if changed then .ok (.changed newExpr, ctx)
              else
                match newExpr.name with
                | none => .ok (.unchanged newExpr, ctx)
                | some nm =>
                    match findMatchingDefinition mFuel newExpr nm .downValue ctx with
                    | .error msg => .error msg
                    | .ok none => .ok (.unchanged (.normal headExpr elems), ctx)
                    | .ok (some unevaluatedRule) =>
                        unevaluatedRule.apply (.normal headExpr elems) ctx)
  | _ + 1, _, .str s, ctx => .ok (.unchanged (.str s), ctx)
  | _ + 1, _, .int n, ctx => .ok (.unchanged (.int n), ctx)
  | _ + 1, _, .real r, ctx => .ok (.unchanged (.real r), ctx)

/-- The element loop of `evaluate_step`: each element is held (cloned) when
the head's Hold attributes apply to its position, evaluated otherwise,
threading the context left to right and or-ing the changed flags. -/
def evalElements : Nat → Nat → Attributes → List Expr → Nat → Context →
    Except String (List Expr × Bool × Context)
  | _, _, _, [], _, ctx => .ok ([], false, ctx)
  | sFuel, mFuel, attributes, e :: rest, i, ctx =>
      if attributes.holdAll || attributes.holdAllComplete ||
          (attributes.holdFirst && i == 0) || (attributes.holdRest && 0 < i) then
        match evalElements sFuel mFuel attributes rest (i + 1) ctx with
        | .error msg => .error msg
        | .ok (out, changed, ctx) => .ok (e :: out, changed, ctx)
      else
        match evaluateStep sFuel mFuel e ctx with
        | .error msg => .error msg
        | .ok (r, ctx) =>
            match evalElements sFuel mFuel attributes rest (i + 1) ctx with
            | .error msg => .error msg
            | .ok (out, changed, ctx) => .ok (r.expr :: out, r.isChanged || changed, ctx)

end

/-- Source `evaluate`: the fixed-point loop — re-evaluate while a pass reports
`Changed`, or while a pass left the term unchanged but bumped the context's
`state_version`; quiesce otherwise.  `fuel` bounds the loop. -/
def evaluate : Nat → Nat → Nat → Expr → Context → Except String (Expr × Context)
  | 0, _, _, _, _ => .error "out of fuel"
  | fuel + 1, sFuel, mFuel, e, ctx =>
      let initialContextState := ctx.stateVersion
      match evaluateStep sFuel mFuel e ctx with
      | .error msg => .error msg
      | .ok (.changed newExpr, ctx') => evaluate fuel sFuel mFuel newExpr ctx'
      | .ok (.unchanged newExpr, ctx') =>
          if initialContextState ≠ ctx'.stateVersion then
            evaluate fuel sFuel mFuel newExpr ctx'
          else .ok (newExpr, ctx')

/-- Source `register_set_builtin`.  (The source adds `Attribute::HoldSequences`, a
variant spelled `HoldSequence` in `attributes.rs`; the bitfield models that
variant.) -/
def registerSetBuiltin (ctx : Context) : Except String Context :=
  match ctx.setValue "Set" .downValue
      (.builtInMut (.normal (.sym "Set") [patBlank "lhs", patBlank "rhs"]) none .setFn) with
  | .error e => .error e
  | .ok ctx =>
      ctx.setAttributes "Set"
        (Attributes.ofList [.readOnly, .attributesReadOnly, .holdFirst, .holdSequence])

/-- Source `register_set_delayed_builtin`. -/
def registerSetDelayedBuiltin (ctx : Context) : Except String Context :=
  match ctx.setValue "SetDelayed" .downValue
      (.builtInMut (.normal (.sym "SetDelayed") [patBlank "lhs", patBlank "rhs"]) none
        .setDelayedFn) with
  | .error e => .error e
  | .ok ctx =>
      ctx.setAttributes "SetDelayed"
        (Attributes.ofList [.readOnly, .attributesReadOnly, .holdAll, .holdSequence])

/-- Source `register_head_builtin` (two DownValue rules). -/
def registerHeadBuiltin (ctx : Context) : Except String Context :=
  match ctx.setValue "Head" .downValue
      (.builtIn (.normal (.sym "Head") [patBlank "expr"]) none .headFn) with
  | .error e => .error e
  | .ok ctx =>
      match ctx.setValue "Head" .downValue
          (.builtIn (.normal (.sym "Head") [patBlank "expr", patBlank "h"]) none .headWrapFn) with
      | .error e => .error e
      | .ok ctx =>
          ctx.setAttributes "Head" (Attributes.ofList [.readOnly, .attributesReadOnly])

/-- Source `register_plus_builtin`. -/
def registerPlusBuiltin (ctx : Context) : Except String Context :=
  match ctx.setValue "Plus" .downValue
      (.builtIn (.normal (.sym "Plus") [patBlankNullSeq "exprs"]) none .plusFn) with
  | .error e => .error e
  | .ok ctx =>
      ctx.setAttributes "Plus"
        (Attributes.ofList [.readOnly, .attributesReadOnly, .associative, .commutative])

/-- Source `register_times_builtin`. -/
def registerTimesBuiltin (ctx : Context) : Except String Context :=
  match ctx.setValue "Times" .downValue
      (.builtIn (.normal (.sym "Times") [patBlankNullSeq "exprs"]) none .timesFn) with
  | .error e => .error e
  | .ok ctx =>
      ctx.setAttributes "Times"
        (Attributes.ofList [.readOnly, .attributesReadOnly, .associative, .commutative])

/-- Source `register_subtract_builtin`. -/
def registerSubtractBuiltin (ctx : Context) : Except String Context :=
  match ctx.setValue "Subtract" .downValue
      (.builtIn (.normal (.sym "Subtract") [patBlank "lhs", patBlank "rhs"]) none
        .subtractFn) with
  | .error e => .error e
  | .ok ctx =>
      ctx.setAttributes "Subtract" (Attributes.ofList [.readOnly, .attributesReadOnly])

/-- Source `register_builtins`: the fixed registration order. -/
def registerBuiltins (ctx : Context) : Except String Context :=
  match registerSetBuiltin ctx with
  | .error e => .error e
  | .ok ctx =>
      match registerSetDelayedBuiltin ctx with
      | .error e => .error e
      | .ok ctx =>
          match registerHeadBuiltin ctx with
          | .error e => .error e
          | .ok ctx =>
              match registerPlusBuiltin ctx with
              | .error e => .error e
              | .ok ctx =>
                  match registerTimesBuiltin ctx with
                  | .error e => .error e
                  | .ok ctx => registerSubtractBuiltin ctx

/-- Source `Context::new_global_context`: a fresh context with the built-ins
registered (each registration `unwrap` surfaces as the propagated error;
none fires). -/
def newGlobalContext : Except String Context :=
  registerBuiltins (Context.new "Global")

/-- Evaluate a term in a fresh global context, returning the result term. -/
def evalGlobal (fuel sFuel mFuel : Nat) (e : Expr) : Except String Expr :=
  match newGlobalContext with
  | .error msg => .error msg
  | .ok ctx =>
      match evaluate fuel sFuel mFuel e ctx with
      | .error msg => .error msg
      | .ok (r, _) => .ok r


/-! ## Helper definitions and lemmas for the claim theorems -/

/-- Whether the context already stores an equal rule of the given class
(the `contains` test performed by the `set_*_value` operations). -/
def ctxContainsValue (ctx : Context) (s : String) (vt : ValueType) (v : SymbolValue) : Bool :=
  match ctx.getValues s vt with
  | none => false
  | some values => symbolValueContains values v

/-- Runs a list of top-level inputs through `evaluate` in sequence,
threading the context (the REPL behaviour), returning the last result. -/
def evalProgramGo (fuel sFuel mFuel : Nat) : List Expr → Context → Except String (Expr × Context)
  | [], ctx => .ok (.sym "Null", ctx)
  | e :: rest, ctx =>
      match evaluate fuel sFuel mFuel e ctx with
      | .error msg => .error msg
      | .ok (r, ctx') =>
          match rest with
          | [] => .ok (r, ctx')
          | _ => evalProgramGo fuel sFuel mFuel rest ctx'

/-- Evaluates a sequence of inputs from a fresh global context. -/
def evalProgram (fuel sFuel mFuel : Nat) (es : List Expr) : Except String Expr :=
  match newGlobalContext with
  | .error msg => .error msg
  | .ok ctx =>
      match evalProgramGo fuel sFuel mFuel es ctx with
      | .error msg => .error msg
      | .ok (r, _) => .ok r

theorem alistGet_insert {α : Type} (k : String) (v : α) :
    ∀ l : List (String × α), alistGet k (alistInsert k v l) = some v := by
  intro l
  induction l with
  | nil => simp [alistInsert, alistGet]
  | cons hd tl ih =>
      by_cases h : hd.1 = k
      · simp [alistInsert, alistGet, h]
      · simp [alistInsert, alistGet, h, ih]

theorem setOwnValue_version (ctx : Context) (s : String) (v : SymbolValue) (ctx' : Context)
    (h : ctx.setOwnValue s v = .ok ctx') :
    ctx'.stateVersion =
      if ctxContainsValue ctx s .ownValue v then ctx.stateVersion else ctx.stateVersion + 1 := by
  unfold ctxContainsValue Context.getValues Context.getDefinition
  cases halist : alistGet s ctx.definitions with
  | some d =>
      simp only [Context.setOwnValue, Context.getDefinitionMut, halist, Option.map] at h ⊢
      split at h
      · exact absurd h (by simp)
      · split at h
        · next hc => cases h; simp [hc]
        · next hc => cases h; simp [hc]
  | none =>
      simp only [Context.setOwnValue, Context.getDefinitionMut, halist, Option.map] at h ⊢
      split at h
      · exact absurd h (by simp)
      · split at h
        · next hc => exact absurd hc (by simp [SymbolDefinition.empty, symbolValueContains])
        · cases h; simp

theorem setUpValue_version (ctx : Context) (s : String) (v : SymbolValue) (ctx' : Context)
    (h : ctx.setUpValue s v = .ok ctx') :
    ctx'.stateVersion =
      if ctxContainsValue ctx s .upValue v then ctx.stateVersion else ctx.stateVersion + 1 := by
  unfold ctxContainsValue Context.getValues Context.getDefinition
  cases halist : alistGet s ctx.definitions with
  | some d =>
      simp only [Context.setUpValue, Context.getDefinitionMut, halist, Option.map] at h ⊢
      split at h
      · exact absurd h (by simp)
      · split at h
        · next hc => cases h; simp [hc]
        · next hc => cases h; simp [hc]
  | none =>
      simp only [Context.setUpValue, Context.getDefinitionMut, halist, Option.map] at h ⊢
      split at h
      · exact absurd h (by simp)
      · split at h
        · next hc => exact absurd hc (by simp [SymbolDefinition.empty, symbolValueContains])
        · cases h; simp

theorem setDownValue_version (ctx : Context) (s : String) (v : SymbolValue) (ctx' : Context)
    (h : ctx.setDownValue s v = .ok ctx') :
    ctx'.stateVersion =
      if ctxContainsValue ctx s .downValue v then ctx.stateVersion else ctx.stateVersion + 1 := by
  unfold ctxContainsValue Context.getValues Context.getDefinition
  cases halist : alistGet s ctx.definitions with
  | some d =>
      simp only [Context.setDownValue, Context.getDefinitionMut, halist, Option.map] at h ⊢
      split at h
      · exact absurd h (by simp)
      · split at h
        · next hc => cases h; simp [hc]
        · next hc => cases h; simp [hc]
  | none =>
      simp only [Context.setDownValue, Context.getDefinitionMut, halist, Option.map] at h ⊢
      split at h
      · exact absurd h (by simp)
      · split at h
        · next hc => exact absurd hc (by simp [SymbolDefinition.empty, symbolValueContains])
        · cases h; simp

theorem setSubValue_version (ctx : Context) (s : String) (v : SymbolValue) (ctx' : Context)
    (h : ctx.setSubValue s v = .ok ctx') :
    ctx'.stateVersion =
      if ctxContainsValue ctx s .subValue v then ctx.stateVersion else ctx.stateVersion + 1 := by
  unfold ctxContainsValue Context.getValues Context.getDefinition
  cases halist : alistGet s ctx.definitions with
  | some d =>
      simp only [Context.setSubValue, Context.getDefinitionMut, halist, Option.map] at h ⊢
      split at h
      · exact absurd h (by simp)
      · split at h
        · next hc => cases h; simp [hc]
        · next hc => cases h; simp [hc]
  | none =>
      simp only [Context.setSubValue, Context.getDefinitionMut, halist, Option.map] at h ⊢
      split at h
      · exact absurd h (by simp)
      · split at h
        · next hc => exact absurd hc (by simp [SymbolDefinition.empty, symbolValueContains])
        · cases h; simp

theorem setDownValue_contains_noop (ctx : Context) (s : String) (v : SymbolValue)
    (hc : ctxContainsValue ctx s .downValue v = true)
    (hro : (ctx.getAttributes s).readOnly = false) :
    ctx.setDownValue s v = .ok ctx := by
  unfold ctxContainsValue Context.getValues Context.getDefinition at hc
  cases halist : alistGet s ctx.definitions with
  | none => simp [halist] at hc
  | some d =>
      simp only [halist, Option.map] at hc
      simp only [Context.setDownValue, Context.getDefinitionMut, halist, hro, hc]
      simp

theorem setDownValue_appends (ctx : Context) (s : String) (v : SymbolValue) (ctx' : Context)
    (h : ctx.setDownValue s v = .ok ctx')
    (hnc : ctxContainsValue ctx s .downValue v = false) :
    ctx'.getValues s .downValue = some (((ctx.getValues s .downValue).getD []) ++ [v]) := by
  unfold ctxContainsValue at hnc
  unfold Context.getValues Context.getDefinition at hnc ⊢
  cases halist : alistGet s ctx.definitions with
  | some d =>
      simp only [halist, Option.map] at hnc ⊢
      simp only [Context.setDownValue, Context.getDefinitionMut, halist] at h
      split at h
      · exact absurd h (by simp)
      · split at h
        · next hcon => simp [hcon] at hnc
        · cases h
          simp [alistGet_insert]
  | none =>
      simp only [halist, Option.map] at hnc ⊢
      simp only [Context.setDownValue, Context.getDefinitionMut, halist] at h
      split at h
      · exact absurd h (by simp)
      · split at h
        · next hcon => exact absurd hcon (by simp [SymbolDefinition.empty, symbolValueContains])
        · cases h
          simp [alistGet_insert, SymbolDefinition.empty]

/-- The commutative test context of the matcher tests (`fc` carries the
Commutative attribute and nothing else is registered). -/
def fcContext : Context :=
  ⟨"test", [("fc", Attributes.ofList [.commutative])], [], 0⟩

/-- A context carrying the chained own-values `f = f2` and `f2 = f3`
(obtainable through `Set[f, f2]; Set[f2, f3]`). -/
def chainContext : Context :=
  ⟨"test", [],
    [("f", ⟨[.definitions (.sym "f") none (.sym "f2")], [], [], []⟩),
     ("f2", ⟨[.definitions (.sym "f2") none (.sym "f3")], [], [], []⟩)],
    0⟩

/-! ## The claims -/

/-- C1: the claim says an evaluation pass sorts the argument list of an
Orderless/Commutative head, so that evaluate(Plus[b, 0, a]) = Plus[a, b].
The code drops the additive identity but never sorts — the Orderless step
exists only as a comment in `evaluate_step`, although the doc comment on
`Attribute::Commutative` promises "During evaluation arguments will be
sorted".  Evaluating `Plus[b, 0, a]` in a fresh global context returns
`Plus[b, a]`, still in input order, which differs from the claimed
`Plus[a, b]`. -/
theorem c1_orderless_not_sorted :
    evalGlobal 5 10 3000 (.normal (.sym "Plus") [.sym "b", .int 0, .sym "a"]) =
      .ok (.normal (.sym "Plus") [.sym "b", .sym "a"]) ∧
    Expr.normal (.sym "Plus") [.sym "b", .sym "a"] ≠
      Expr.normal (.sym "Plus") [.sym "a", .sym "b"] :=
  ⟨rfl, by decide⟩

/-- C2: the claim says evaluate always returns a result term without
panicking, in particular on conditional rules and on Set applied to a
non-symbol atom.  Both cases panic in the code: `Set[5, 6]` reaches
`pattern.name().unwrap()` on `None` inside `declare_rule`, and evaluating
`f[1]` after `SetDelayed[f[x_], Condition[0, True]]` reaches the `todo!()`
for rule conditions inside `find_matching_definition`. -/
theorem c2_evaluator_panics :
    evalGlobal 5 10 3000 (.normal (.sym "Set") [.int 5, .int 6]) =
      .error "called Option unwrap on a None value" ∧
    evalProgram 5 10 3000
      [.normal (.sym "SetDelayed")
        [.normal (.sym "f") [patBlank "x"],
         .normal (.sym "Condition") [.int 0, .sym "True"]],
       .normal (.sym "f") [.int 1]] =
      .error "not yet implemented" :=
  ⟨rfl, rfl⟩

/-- C3 counterexample: evaluating `Set[x, 5]` in a fresh global context
yields `Hold[5]`, not the claimed result `rhs` = `5`. -/
theorem c3_set_returns_hold_counterexample :
    evalGlobal 5 10 3000 (.normal (.sym "Set") [.sym "x", .int 5]) =
      .ok (.normal (.sym "Hold") [.int 5]) ∧
    Expr.normal (.sym "Hold") [.int 5] ≠ .int 5 :=
  ⟨rfl, by decide⟩

/-- C3 amended: evaluating `Set[lhs, rhs]` registers the rule as an
OwnValue on a symbol lhs and as a DownValue on the head symbol of a
compound lhs, bumps `state_version` by one, and the evaluation result is
`Hold[rhs]` (the built-in returns `Changed(Hold[rhs])`), not `rhs`. -/
theorem c3_set_amended :
    (newGlobalContext.bind fun ctx =>
      (evaluate 5 10 3000 (.normal (.sym "Set") [.sym "x", .int 5]) ctx).map
        fun rc => (rc.1, alistGet "x" rc.2.definitions, rc.2.stateVersion - ctx.stateVersion)) =
      .ok (.normal (.sym "Hold") [.int 5],
        some ⟨[.definitions (.sym "x") none (.int 5)], [], [], []⟩, 1) ∧
    (newGlobalContext.bind fun ctx =>
      (evaluate 5 10 3000 (.normal (.sym "Set") [.normal (.sym "f") [.int 1], .int 7]) ctx).map
        fun rc => (rc.1, alistGet "f" rc.2.definitions, rc.2.stateVersion - ctx.stateVersion)) =
      .ok (.normal (.sym "Hold") [.int 7],
        some ⟨[], [], [.definitions (.normal (.sym "f") [.int 1]) none (.int 7)], []⟩, 1) :=
  ⟨rfl, rfl⟩

/-- C4 counterexample: `set_attributes` succeeds on a fresh context yet
leaves `state_version` unchanged, refuting "changing a symbol's attribute
bitset bumps state_version". -/
theorem c4_attributes_no_bump_counterexample :
    ((Context.new "test").setAttributes "f" (Attributes.ofList [.commutative])).map
      Context.stateVersion = .ok (Context.new "test").stateVersion :=
  rfl

/-- C4 amended: `set_attributes` never changes `state_version`; adding a
rule through `set_value` bumps it by exactly one when no equal rule of
that class is already stored, and leaves it unchanged otherwise. -/
theorem c4_state_version_amended :
    (∀ (ctx : Context) (s : String) (a : Attributes) (ctx' : Context),
      ctx.setAttributes s a = .ok ctx' → ctx'.stateVersion = ctx.stateVersion) ∧
    (∀ (ctx : Context) (s : String) (vt : ValueType) (v : SymbolValue) (ctx' : Context),
      ctx.setValue s vt v = .ok ctx' →
        ctx'.stateVersion =
          if ctxContainsValue ctx s vt v then ctx.stateVersion else ctx.stateVersion + 1) := by
  constructor
  · intro ctx s a ctx' h
    simp only [Context.setAttributes] at h
    split at h
    · exact absurd h (by simp)
    · cases h; rfl
  · intro ctx s vt v ctx' h
    cases vt
    · exact setOwnValue_version ctx s v ctx' h
    · exact setUpValue_version ctx s v ctx' h
    · exact setDownValue_version ctx s v ctx' h
    · exact setSubValue_version ctx s v ctx' h

/-- C4 amended, witness: a concrete successful attribute change keeps the
version; a concrete fresh rule addition bumps it to one. -/
theorem c4_state_version_amended_witness :
    (⟨"w", [("g", Attributes.ofList [.associative])], [], 0⟩ : Context).stateVersion =
      (Context.new "w").stateVersion ∧
    (⟨"w", [], [("g", ⟨[], [], [.definitions (.sym "p") none (.int 0)], []⟩)], 1⟩ :
        Context).stateVersion =
      if ctxContainsValue (Context.new "w") "g" .downValue
          (.definitions (.sym "p") none (.int 0)) then
        (Context.new "w").stateVersion
      else (Context.new "w").stateVersion + 1 :=
  ⟨c4_state_version_amended.1 (Context.new "w") "g" (Attributes.ofList [.associative])
      ⟨"w", [("g", Attributes.ofList [.associative])], [], 0⟩ (by rfl),
   c4_state_version_amended.2 (Context.new "w") "g" .downValue
      (.definitions (.sym "p") none (.int 0))
      ⟨"w", [], [("g", ⟨[], [], [.definitions (.sym "p") none (.int 0)], []⟩)], 1⟩ (by rfl)⟩

/-- C5 counterexample: two ground rules with equal pattern and condition
but different replacements are NOT equal under the code's rule equality
(the ground is compared), and adding the second after the first appends a
second rule with the same pattern instead of replacing the first. -/
theorem c5_rule_equality_counterexample :
    symbolValueEq
      (.definitions (.normal (.sym "f") [patBlank "x"]) none (.int 0))
      (.definitions (.normal (.sym "f") [patBlank "x"]) none (.int 1)) = false ∧
    (((Context.new "t").setDownValue "f"
        (.definitions (.normal (.sym "f") [patBlank "x"]) none (.int 0))).bind fun c =>
      c.setDownValue "f"
        (.definitions (.normal (.sym "f") [patBlank "x"]) none (.int 1))) =
      .ok ⟨"t", [],
        [("f", ⟨[], [],
          [.definitions (.normal (.sym "f") [patBlank "x"]) none (.int 0),
           .definitions (.normal (.sym "f") [patBlank "x"]) none (.int 1)], []⟩)], 2⟩ :=
  ⟨rfl, rfl⟩

/-- C5 amended: rules carrying native functions compare by pattern and
condition only (the function tag is ignored), but ground rules also
compare the replacement; adding a rule equal to a stored one is a no-op
that keeps the context unchanged (the old rule is kept, nothing is
replaced), while any other rule is appended at the end of the list. -/
theorem c5_rule_equality_amended :
    (∀ (p : Expr) (c : Option Expr) (t1 t2 : BuiltinTag),
      symbolValueEq (.builtIn p c t1) (.builtIn p c t2) = true) ∧
    (∀ (p : Expr) (c : Option Expr) (t1 t2 : BuiltinTag),
      symbolValueEq (.builtInMut p c t1) (.builtInMut p c t2) = true) ∧
    (∀ (p : Expr) (c : Option Expr) (g1 g2 : Expr),
      symbolValueEq (.definitions p c g1) (.definitions p c g2) = true ↔ g1 = g2) ∧
    (∀ (ctx : Context) (s : String) (v : SymbolValue),
      ctxContainsValue ctx s .downValue v = true →
      (ctx.getAttributes s).readOnly = false →
      ctx.setDownValue s v = .ok ctx) ∧
    (∀ (ctx : Context) (s : String) (v : SymbolValue) (ctx' : Context),
      ctx.setDownValue s v = .ok ctx' →
      ctxContainsValue ctx s .downValue v = false →
      ctx'.getValues s .downValue = some (((ctx.getValues s .downValue).getD []) ++ [v])) := by
  refine ⟨?_, ?_, ?_, setDownValue_contains_noop, setDownValue_appends⟩
  · intro p c t1 t2; simp [symbolValueEq]
  · intro p c t1 t2; simp [symbolValueEq]
  · intro p c g1 g2; simp [symbolValueEq]

/-- C5 amended, witness: the parts applied at concrete rules — two `Plus`
and `Times` built-ins with one pattern are equal; re-adding a stored rule
is a no-op; adding a fresh rule appends it. -/
theorem c5_rule_equality_amended_witness :
    symbolValueEq (.builtIn (.sym "q") none .plusFn) (.builtIn (.sym "q") none .timesFn) =
      true ∧
    (⟨"w", [], [("f", ⟨[], [], [.definitions (.sym "p") none (.int 0)], []⟩)], 3⟩ :
        Context).setDownValue "f" (.definitions (.sym "p") none (.int 0)) =
      .ok ⟨"w", [], [("f", ⟨[], [], [.definitions (.sym "p") none (.int 0)], []⟩)], 3⟩ ∧
    (⟨"w", [], [("f", ⟨[], [], [.definitions (.sym "p") none (.int 0)], []⟩)], 3⟩ :
        Context).getValues "f" .downValue =
      some ([] ++ [.definitions (.sym "p") none (.int 0)]) :=
  ⟨c5_rule_equality_amended.1 (.sym "q") none .plusFn .timesFn,
   c5_rule_equality_amended.2.2.2.1
      ⟨"w", [], [("f", ⟨[], [], [.definitions (.sym "p") none (.int 0)], []⟩)], 3⟩ "f"
      (.definitions (.sym "p") none (.int 0)) (by rfl) (by rfl),
   c5_rule_equality_amended.2.2.2.2 (Context.new "w") "f"
      (.definitions (.sym "p") none (.int 0))
      ⟨"w", [], [("f", ⟨[], [], [.definitions (.sym "p") none (.int 0)], []⟩)], 1⟩
      (by rfl) (by rfl)⟩

/-- C6: with `fc` Commutative, matching `fc[x_, y_, c]` against
`fc[a, b, c]` emits exactly the two solutions x→a, y→b and then x→b, y→a,
in that order, and then no more (collecting with room for three solutions
returns exactly these two). -/
theorem c6_commutative_two_solutions :
    (Context.new "test").setAttributes "fc" (Attributes.ofList [.commutative]) =
      .ok fcContext ∧
    matcherCollect fcContext 200 3
      (matcherInit
        (.normal (.sym "fc") [patBlank "x", patBlank "y", .sym "c"])
        (.normal (.sym "fc") [.sym "a", .sym "b", .sym "c"])) =
      .ok [[("x", .sym "a"), ("y", .sym "b")], [("x", .sym "b"), ("y", .sym "a")]] :=
  ⟨rfl, rfl⟩

/-- C7: the AFA generator over `[a, b, c]` with head `f` emits exactly the
thirteen groupings of the claim, in order, then exhausts (room for twenty
yields exactly thirteen), and emits nothing for an empty element list. -/
theorem c7_afa_thirteen_groupings :
    afaCollect 20 (AFAGen.new ⟨.sym "f", [.sym "a", .sym "b", .sym "c"]⟩) =
      [[.sym "a", .sym "b", .sym "c"],
       [.normal (.sym "f") [.sym "a"], .sym "b", .sym "c"],
       [.sym "a", .normal (.sym "f") [.sym "b"], .sym "c"],
       [.sym "a", .sym "b", .normal (.sym "f") [.sym "c"]],
       [.normal (.sym "f") [.sym "a"], .normal (.sym "f") [.sym "b"], .sym "c"],
       [.normal (.sym "f") [.sym "a"], .sym "b", .normal (.sym "f") [.sym "c"]],
       [.sym "a", .normal (.sym "f") [.sym "b"], .normal (.sym "f") [.sym "c"]],
       [.normal (.sym "f") [.sym "a"], .normal (.sym "f") [.sym "b"],
        .normal (.sym "f") [.sym "c"]],
       [.normal (.sym "f") [.sym "a", .sym "b"], .sym "c"],
       [.normal (.sym "f") [.sym "a", .sym "b"], .normal (.sym "f") [.sym "c"]],
       [.sym "a", .normal (.sym "f") [.sym "b", .sym "c"]],
       [.normal (.sym "f") [.sym "a"], .normal (.sym "f") [.sym "b", .sym "c"]],
       [.normal (.sym "f") [.sym "a", .sym "b", .sym "c"]]] ∧
    afaCollect 20 (AFAGen.new ⟨.sym "f", []⟩) = [] :=
  ⟨rfl, rfl⟩

/-- C8 counterexample: with the own-values `f = f2` and `f2 = f3`,
`evaluate(f)` returns `f2` (the rule application is tagged Unchanged
because the replacement contains no bound variables, so the fixed-point
loop stops), while `evaluate(evaluate(f)) = evaluate(f2) = f3` — so
evaluation is not idempotent. -/
theorem c8_idempotence_counterexample :
    evaluate 5 10 100 (.sym "f") chainContext = .ok (.sym "f2", chainContext) ∧
    evaluate 5 10 100 (.sym "f2") chainContext = .ok (.sym "f3", chainContext) ∧
    Expr.sym "f3" ≠ .sym "f2" :=
  ⟨rfl, rfl, by decide⟩

/-- C8 amended: re-running the evaluator changes nothing at every term
that is a genuine fixpoint of a single evaluation pass — whenever
`evaluate_step` reports the term Unchanged with the same term and context
back, `evaluate` returns it as-is.  (The evaluator's own output need not
be such a fixpoint: a rule replacement without bound-variable occurrences
is mis-tagged Unchanged, as the counterexample shows, so idempotence fails
in general.) -/
theorem c8_idempotence_amended : ∀ (fuel sFuel mFuel : Nat) (r : Expr) (ctx : Context),
    evaluateStep sFuel mFuel r ctx = .ok (.unchanged r, ctx) →
    evaluate (fuel + 1) sFuel mFuel r ctx = .ok (r, ctx) := by
  intro fuel s m r ctx h
  simp [evaluate, h]

/-- C8 amended, witness: the integer `5` is a one-pass fixpoint in a fresh
context, and `evaluate` indeed returns it unchanged. -/
theorem c8_idempotence_amended_witness :
    evaluate 1 1 1 (.int 5) (Context.new "w") = .ok (.int 5, Context.new "w") :=
  c8_idempotence_amended 0 1 1 (.int 5) (Context.new "w") (by rfl)

/-- C9 counterexample: beyond 32 elements the bitmask permutation
generator panics ("too many elements") instead of returning an explicit
error term — both directly and through the associative-commutative
function application generator the matcher builds. -/
theorem c9_arity_panic_counterexample :
    PermGen.new 33 = .error "too many elements" ∧
    AFACGen.new ⟨.sym "fc", (List.range 33).map fun i => Expr.int i⟩ =
      .error "too many elements" :=
  ⟨rfl, rfl⟩

/-- C9 amended: the bitmask permutation generator supports at most 32
elements and panics ("too many elements") above that — there is no error
term and matching cannot proceed — while the arbitrary-precision subset
generator accepts any positive width. -/
theorem c9_arity_amended :
    (∀ n : Nat, n ≤ 32 → PermGen.new n = .ok ⟨n, factorial128 n, 0⟩) ∧
    (∀ n : Nat, 32 < n → PermGen.new n = .error "too many elements") ∧
    (∀ n : Nat, 0 < n → (Subset.empty n).next = some ⟨n, 1⟩) := by
  refine ⟨?_, ?_, ?_⟩
  · intro n h
    unfold PermGen.new
    rw [if_neg (by omega)]
  · intro n h
    unfold PermGen.new
    rw [if_pos h]
  · intro n h
    have hne : n ≠ 0 := by omega
    simp [Subset.next, Subset.resizeNext, Subset.empty, hne]

/-- C9 amended, witness: 30 elements are accepted, 40 panic, and the
subset generator starts normally at width 4. -/
theorem c9_arity_amended_witness :
    PermGen.new 30 = .ok ⟨30, factorial128 30, 0⟩ ∧
    PermGen.new 40 = .error "too many elements" ∧
    (Subset.empty 4).next = some ⟨4, 1⟩ :=
  ⟨c9_arity_amended.1 30 (by decide), c9_arity_amended.2.1 40 (by decide),
   c9_arity_amended.2.2 4 (by decide)⟩

/-- C10: the individual blank pattern `x_` matches a ground
`Sequence[e1, ..., en]` for every element list — including the empty one —
with exactly one solution binding `x` to the whole `Sequence` term
(collecting with room for two returns exactly one), whereas the non-empty
sequence pattern `x__` yields no solution against `Sequence[]`. -/
theorem c10_blank_matches_sequence : ∀ es : List Expr,
    matcherCollect (Context.new "test") 10 2
      (matcherInit (patBlank "x") (.normal (.sym "Sequence") es)) =
      .ok [[("x", .normal (.sym "Sequence") es)]] ∧
    matcherCollect (Context.new "test") 10 2
      (matcherInit
        (.normal (.sym "Pattern") [.sym "x", .normal (.sym "BlankSequence") []])
        (.normal (.sym "Sequence") [])) =
      .ok [] := by
  intro es
  exact ⟨rfl, rfl⟩

end Luna
